import Mathlib

/-!
Verification of the Z-Score ranking engine of the RosterGuru repository
(`scripts/zscore_calculator.py`, configuration in `scripts/config.py`).

The calculator is shallowly embedded: a player record is an association
list from field names to optional real values (a Python dict; `none`
plays the role of a null/NaN entry), a pandas DataFrame is a column list
together with a cell function, and every numeric operation of the source
is carried out over `ℝ` (the exact-real semantics of the floating-point
source; IEEE rounding, NaN propagation and infinities are outside the
model, and the sample standard deviation of a singleton list — NaN in
pandas — is 0 here, so every guard `std == 0` of the source covers it).
-/

set_option maxRecDepth 16384

namespace RosterGuru

/-- A field name of a player record (a Python dict key). -/
abbrev Field := String

/-- One player's statistics: a dict from field names to a numeric value
or null.  `none` in the range models a null value. -/
abbrev Record := List (Field × Option ℝ)

/-- Python `dict.__getitem__` / key lookup: `none` when the key is
absent, `some v` when the key maps to `v` (itself an `Option ℝ`). -/
def dictGet (r : Record) (k : Field) : Option (Option ℝ) :=
  (r.find? (fun p => p.1 == k)).map (fun p => p.2)

/-- The keys of a record, in order. -/
def dictKeys (r : Record) : List Field := r.map (fun p => p.1)

/-- Python `d[k] = v`: replace the value at the (first) binding of `k`
when present, append `(k, v)` otherwise.  A dict holds at most one
binding per key, so this is the dict update. -/
def dictSet : Record → Field → Option ℝ → Record
  | [], k, v => [(k, v)]
  | p :: t, k, v => if p.1 == k then (p.1, v) :: t else p :: dictSet t k v

/-- Remove a key from a record (used to state that the ranking
operations only add their rank field). -/
def stripField (k : Field) (r : Record) : Record :=
  r.filter (fun p => !(p.1 == k))

/-- Whether a field name starts with the seven characters `zscore_`.
All derived columns the calculator writes carry this prefix. -/
def hasZscorePrefix (c : Field) : Bool :=
  c.data.take 7 == "zscore_".data

/-- A pandas DataFrame: the ordered column list, the number of rows and
the cell contents (`none` = NaN).  `val c i` is only meaningful for
`c ∈ cols` and `i < nrows`; all operations read cells through `cols`. -/
structure DataFrame where
  cols : List Field
  nrows : ℕ
  val : Field → ℕ → Option ℝ

/-- `pd.DataFrame(list_of_dicts)`: the columns are the union of the
records' keys in order of first appearance, and a cell is NaN when the
record lacks the key or maps it to null. -/
def mkCols (rs : List Record) : List Field :=
  rs.foldl (fun acc r => (dictKeys r).foldl
    (fun a k => if k ∈ a then a else a ++ [k]) acc) []

def mkDataFrame (rs : List Record) : DataFrame where
  cols := mkCols rs
  nrows := rs.length
  val := fun c i =>
    match rs[i]? with
    | some r => (dictGet r c).join
    | none => none

/-- Extract a column as the list of its cells. -/
def DataFrame.col (df : DataFrame) (c : Field) : List (Option ℝ) :=
  (List.range df.nrows).map (fun i => df.val c i)

/-- `df[c] = series`: overwrite the column in place when it exists,
append it otherwise. -/
def DataFrame.setCol (df : DataFrame) (c : Field) (xs : List (Option ℝ)) :
    DataFrame where
  cols := if c ∈ df.cols then df.cols else df.cols ++ [c]
  nrows := df.nrows
  val := fun c' i => if c' = c then xs.getD i none else df.val c' i

/-- `df.to_dict('records')`: one dict per row over every column. -/
def toRecords (df : DataFrame) : List Record :=
  (List.range df.nrows).map (fun i => df.cols.map (fun c => (c, df.val c i)))

/-- `series.fillna(0)`. -/
def fillna (xs : List (Option ℝ)) : List ℝ := xs.map (fun x => x.getD 0)

/-- pandas `series.mean()`: arithmetic mean. -/
noncomputable def lmean (xs : List ℝ) : ℝ := xs.sum / xs.length

/-- pandas sample variance (`ddof = 1`), the square of `series.std()`. -/
noncomputable def lvar (xs : List ℝ) : ℝ :=
  ((xs.map (fun x => (x - lmean xs) ^ 2)).sum) / ((xs.length : ℝ) - 1)

/-- pandas `series.std()` (sample standard deviation, `ddof = 1`). -/
noncomputable def lstd (xs : List ℝ) : ℝ := Real.sqrt (lvar xs)

/-- pandas `series.quantile(q)` with the default linear interpolation:
sort ascending, let `h = q·(n−1)`, and interpolate between the entries
at positions `⌊h⌋` and `⌊h⌋+1`. -/
noncomputable def insertAsc (v : ℝ) : List ℝ → List ℝ
  | [] => [v]
  | x :: xs => if v ≤ x then v :: x :: xs else x :: insertAsc v xs

noncomputable def sortAsc : List ℝ → List ℝ
  | [] => []
  | x :: xs => insertAsc x (sortAsc xs)

noncomputable def quantile (xs : List ℝ) (q : ℚ) : ℝ :=
  let s := sortAsc xs
  let h : ℚ := q * ((s.length : ℚ) - 1)
  let i : ℕ := h.floor.toNat
  let lo := s.getD i 0
  lo + (s.getD (i + 1) lo - lo) * ((h - h.floor : ℚ) : ℝ)

/-- The calculator's configuration dict (`ZSCORE_CONFIG` and variants).
`min_sample_size` is an optional key: the source's constructor never
reads it (see `ZScoreCalculator.init`). -/
structure ZConfig where
  categories : List Field
  negative_categories : List Field
  weights : List (Field × ℝ)
  min_sample_size : Option ℕ := none

/-- `category in self.weights` / `self.weights[category]`. -/
def wlookup (ws : List (Field × ℝ)) (c : Field) : Option ℝ :=
  (ws.find? (fun p => p.1 == c)).map (fun p => p.2)

/-- The calculator's per-instance state, as set by `__init__`. -/
structure ZScoreCalculator where
  config : ZConfig
  categories : List Field
  negative_categories : List Field
  weights : List (Field × ℝ)
  min_sample_size : ℕ

/-- `ZScoreCalculator.__init__`: copies the config's category lists and
weights and hardcodes `self.min_sample_size = 20`; the config's
`min_sample_size` entry, when present, is never consulted. -/
def ZScoreCalculator.init (config : ZConfig) : ZScoreCalculator where
  config := config
  categories := config.categories
  negative_categories := config.negative_categories
  weights := config.weights
  min_sample_size := 20

/-- `x > 0` on a possibly-NaN cell, as pandas evaluates it inside the
valid-player mask: false on NaN. -/
noncomputable def cellPos : Option ℝ → Bool
  | none => false
  | some v => if 0 < v then true else false

/-- The standard (non-rate) per-category z-score series of
`calculate_zscores` (source lines 42–75, before assignment): reference
mean/std from the top 40 % (positive direction) or bottom 40 %
(negative direction), falling back to the whole batch when the subset
has at most one member, with the zero-std guard. -/
noncomputable def standardZ (neg : Bool) (column : List (Option ℝ)) : List ℝ :=
  let values := fillna column
  let cutoff := if neg then quantile values (2 / 5) else quantile values (3 / 5)
  let top_performers :=
    if neg then values.filter (fun v => decide (v ≤ cutoff))
    else values.filter (fun v => decide (cutoff ≤ v))
  let mean_val := if 1 < top_performers.length then lmean top_performers else lmean values
  let std_val := if 1 < top_performers.length then lstd top_performers else lstd values
  if std_val = 0 then values.map (fun _ => 0)
  else values.map (fun v => (v - mean_val) / std_val)

/-- The standard-z fallback of `_calculate_impact_weighted_zscore`
(source lines 104–107), used when the attempts column is missing. -/
noncomputable def fallbackStd (values : List ℝ) : List ℝ :=
  if lstd values = 0 then List.replicate values.length 0
  else values.map (fun v => (v - lmean values) / lstd values)

/-- `_calculate_impact_weighted_zscore` (source lines 90–145). -/
noncomputable def impactZ (df : DataFrame) (category : Field) : List ℝ :=
  let attempts_column : Option Field :=
    if category = "field_goal_percentage" then some "field_goals_attempted"
    else if category = "free_throw_percentage" then some "free_throws_attempted"
    else none
  match attempts_column with
  | none => fallbackStd (fillna (df.col category))
  | some ac =>
    if ac ∉ df.cols then fallbackStd (fillna (df.col category))
    else
      let validIdx := (List.range df.nrows).filter
        (fun i => cellPos (df.val ac i) && cellPos (df.val category i))
      if validIdx.length = 0 then List.replicate df.nrows 0
      else
        let pct : ℕ → ℝ := fun i => (df.val category i).getD 0
        let att : ℕ → ℝ := fun i => (df.val ac i).getD 0
        let mean_percentage := lmean (validIdx.map pct)
        let impacts := validIdx.map (fun i => (pct i - mean_percentage) * att i)
        if lstd impacts = 0 then List.replicate df.nrows 0
        else
          (List.range df.nrows).map (fun i =>
            if i ∈ validIdx then
              ((pct i - mean_percentage) * att i - lmean impacts) / lstd impacts
            else 0)

/-- One iteration of the per-category loop of `calculate_zscores`
(source lines 33–75): skip absent categories, impact-weighting for the
two shooting percentages, the standard computation otherwise. -/
noncomputable def processCategory (negs : List Field) (df : DataFrame)
    (category : Field) : DataFrame :=
  if category ∉ df.cols then df
  else if category = "field_goal_percentage" ∨ category = "free_throw_percentage" then
    df.setCol ("zscore_" ++ category) ((impactZ df category).map some)
  else
    df.setCol ("zscore_" ++ category)
      ((standardZ (category ∈ negs) (df.col category)).map some)

/-- `_calculate_composite_zscore` (source lines 147–162): accumulate
`Σ zscore_c · |w_c|` and the total weight over the configured
categories whose z-column exists and whose weight is configured, then
divide when the total weight is positive. -/
noncomputable def compositeZ (zc : ZScoreCalculator) (df : DataFrame) : List ℝ :=
  let acc := zc.categories.foldl
    (fun (acc : List ℝ × ℝ) category =>
      if ("zscore_" ++ category) ∈ df.cols ∧ (wlookup zc.weights category).isSome then
        let w := |(wlookup zc.weights category).getD 0|
        (((List.range df.nrows).map (fun i =>
            acc.1.getD i 0 + ((df.val ("zscore_" ++ category) i).getD 0) * w)),
         acc.2 + w)
      else acc)
    (List.replicate df.nrows 0, 0)
  if 0 < acc.2 then acc.1.map (fun x => x / acc.2) else acc.1

/-- `calculate_zscores` (source lines 23–88): small-batch pass-through,
per-category loop, manual turnover inversion, composite column,
`to_dict('records')`. -/
noncomputable def calculate_zscores (zc : ZScoreCalculator)
    (player_stats : List Record) : List Record :=
  if player_stats.length < zc.min_sample_size then player_stats
  else
    let df := mkDataFrame player_stats
    let df1 := zc.categories.foldl (processCategory zc.negative_categories) df
    let df2 :=
      if "zscore_turnovers" ∈ df1.cols then
        df1.setCol "zscore_turnovers"
          ((df1.col "zscore_turnovers").map (fun x => x.map (fun v => v * (-1))))
      else df1
    let df3 := df2.setCol "zscore_total" ((compositeZ zc df2).map some)
    toRecords df3

/-- `x.get(zscore_col, 0)`: the sort key of the ranking operations.
A key that is present but null would make the source's comparison
raise; such records are outside the verified scope and read as 0. -/
noncomputable def sortKey (col : Field) (r : Record) : ℝ :=
  match dictGet r col with
  | none => 0
  | some x => x.getD 0

/-- Python `sorted(..., reverse=True)` is stable: an element is placed
before the first already-sorted element of less-or-equal key. -/
noncomputable def insertDescBy (key : Record → ℝ) (r : Record) :
    List Record → List Record
  | [] => [r]
  | x :: xs => if key x ≤ key r then r :: x :: xs else x :: insertDescBy key r xs

noncomputable def sortDescBy (key : Record → ℝ) : List Record → List Record
  | [] => []
  | x :: xs => insertDescBy key x (sortDescBy key xs)

/-- The `for i, player in enumerate(sorted_stats): player[f] = i + 1`
loop: set the 1-based rank field on each sorted record. -/
noncomputable def addRanks (field : Field) (l : List Record) : List Record :=
  (l.zip (List.range l.length)).map
    (fun p => dictSet p.1 field (some ((p.2 : ℝ) + 1)))

/-- `get_overall_rankings` (source lines 184–200). -/
noncomputable def get_overall_rankings (player_stats : List Record) : List Record :=
  if player_stats = [] then []
  else addRanks "overall_rank" (sortDescBy (sortKey "zscore_total") player_stats)

/-- `get_category_rankings` (source lines 164–182). -/
noncomputable def get_category_rankings (player_stats : List Record)
    (category : Field) : List Record :=
  if player_stats = [] then []
  else addRanks (category ++ "_rank")
    (sortDescBy (sortKey ("zscore_" ++ category)) player_stats)

/-- `ZSCORE_CONFIG` from `scripts/config.py`. -/
noncomputable def ZSCORE_CONFIG : ZConfig where
  categories := ["points", "total_rebounds", "assists", "steals", "blocks",
    "turnovers", "field_goal_percentage", "free_throw_percentage",
    "three_pointers_made"]
  negative_categories := ["turnovers"]
  weights := [("points", 1), ("total_rebounds", 1), ("assists", 1),
    ("steals", 1), ("blocks", 1), ("turnovers", -1),
    ("field_goal_percentage", 1 / 2), ("free_throw_percentage", 3 / 10),
    ("three_pointers_made", 4 / 5)]
  min_sample_size := none

/-- The z-score series one loop iteration writes, as a function of the
data frame it reads. -/
noncomputable def zColumn (negs : List Field) (df : DataFrame) (category : Field) : List ℝ :=
  if category = "field_goal_percentage" ∨ category = "free_throw_percentage" then
    impactZ df category
  else standardZ (category ∈ negs) (df.col category)

/-- A 5-record batch, used to exercise the small-batch pass-through. -/
noncomputable def smallBatch : List Record :=
  (List.range 5).map (fun k : ℕ => [("points", some (k : ℝ))])

/-- A config carrying an explicit `min_sample_size` of 5: the
constructor ignores it. -/
noncomputable def cfgMin5 : ZConfig where
  categories := ["points"]
  negative_categories := []
  weights := [("points", 1)]
  min_sample_size := some 5

/-- A 10-record batch: larger than the configured 5, smaller than the
hardcoded 20. -/
noncomputable def batch10 : List Record :=
  (List.range 10).map (fun k : ℕ => [("points", some (k : ℝ))])

/-- The frame after the per-category loop of `calculate_zscores`. -/
noncomputable def frameAfterCats (zc : ZScoreCalculator) (rs : List Record) : DataFrame :=
  zc.categories.foldl (processCategory zc.negative_categories) (mkDataFrame rs)

/-- The frame after the manual turnover inversion. -/
noncomputable def frameAfterFlip (zc : ZScoreCalculator) (rs : List Record) : DataFrame :=
  if "zscore_turnovers" ∈ (frameAfterCats zc rs).cols then
    (frameAfterCats zc rs).setCol "zscore_turnovers"
      (((frameAfterCats zc rs).col "zscore_turnovers").map
        (fun x => x.map (fun v => v * (-1))))
  else frameAfterCats zc rs

/-- The frame after the composite column is appended. -/
noncomputable def finalFrame (zc : ZScoreCalculator) (rs : List Record) : DataFrame :=
  (frameAfterFlip zc rs).setCol "zscore_total"
    ((compositeZ zc (frameAfterFlip zc rs)).map some)

/-- The reference mean and standard deviation of C1, written from the
specification: the subset of values at or above the 60th percentile
(positive direction) or at or below the 40th percentile (negative
direction), falling back to the whole batch when the subset has fewer
than two members. -/
noncomputable def refMeanStd (negDir : Bool) (values : List ℝ) : ℝ × ℝ :=
  let refSubset :=
    if negDir then values.filter (fun v => decide (v ≤ quantile values (2 / 5)))
    else values.filter (fun v => decide (quantile values (3 / 5) ≤ v))
  if refSubset.length < 2 then (lmean values, lstd values)
  else (lmean refSubset, lstd refSubset)

/-- C1's z-score for row `i`, written from the specification: the row's
value (missing/null read as 0) minus the reference mean, divided by the
reference standard deviation, and 0 for every row when that standard
deviation is exactly 0. -/
noncomputable def specStandardZ (negDir : Bool) (column : List (Option ℝ)) (i : ℕ) : ℝ :=
  let values := fillna column
  let ms := refMeanStd negDir values
  if ms.2 = 0 then 0 else (values.getD i 0 - ms.1) / ms.2

/-- C2's impact-weighted z-score for row `i`, written from the
specification: a row is valid iff its percentage and its attempts are
both present, non-null and positive; `mean_percentage` is the mean of
the percentage over valid rows; a valid row's impact is
`(percentage − mean_percentage) · attempts`; a valid row scores
`(impact − mean_impact) / std_impact` over the valid rows' impacts;
invalid rows score 0, and everyone scores 0 when there are no valid
rows or `std_impact` is 0. -/
noncomputable def specImpactZ (n : ℕ) (pct att : ℕ → Option ℝ) (i : ℕ) : ℝ :=
  let valid : ℕ → Bool := fun j => cellPos (pct j) && cellPos (att j)
  let validIdx := (List.range n).filter valid
  if validIdx.length = 0 then 0
  else
    let mean_percentage := lmean (validIdx.map (fun j => (pct j).getD 0))
    let impact : ℕ → ℝ := fun j => ((pct j).getD 0 - mean_percentage) * (att j).getD 0
    let impacts := validIdx.map impact
    if lstd impacts = 0 then 0
    else if valid i then (impact i - lmean impacts) / lstd impacts else 0

/-- The regularity assumptions under which one batch run of the
calculator is characterised: the batch is at least `min_sample_size`
records; no configured category and no input field carries the
reserved `zscore_` prefix; the configured category list has no
duplicates and does not contain the reserved name `total` (whose
z-column name would collide with the composite column). -/
def SaneSetup (zc : ZScoreCalculator) (rs : List Record) : Prop :=
  zc.min_sample_size ≤ rs.length
  ∧ (∀ c ∈ zc.categories, hasZscorePrefix c = false)
  ∧ (∀ c ∈ mkCols rs, hasZscorePrefix c = false)
  ∧ zc.categories.Nodup
  ∧ "total" ∉ zc.categories

/-- 20 records with a single `points` field. -/
noncomputable def batch20 : List Record :=
  (List.range 20).map (fun k : ℕ => [("points", some (k : ℝ))])

/-- 20 records with a shooting percentage and its paired attempts. -/
noncomputable def batchFG : List Record :=
  (List.range 20).map (fun k : ℕ =>
    [("field_goal_percentage", some ((1 : ℝ) / 2)),
     ("field_goals_attempted", some (k : ℝ))])

/-- 20 records identical except for their `turnovers` value. -/
noncomputable def batchTov : List Record :=
  [[("turnovers", some 0)],
   [("turnovers", some 1)],
   [("turnovers", some 2)],
   [("turnovers", some 3)],
   [("turnovers", some 4)],
   [("turnovers", some 5)],
   [("turnovers", some 6)],
   [("turnovers", some 7)],
   [("turnovers", some 8)],
   [("turnovers", some 9)],
   [("turnovers", some 10)],
   [("turnovers", some 11)],
   [("turnovers", some 12)],
   [("turnovers", some 13)],
   [("turnovers", some 14)],
   [("turnovers", some 15)],
   [("turnovers", some 16)],
   [("turnovers", some 17)],
   [("turnovers", some 18)],
   [("turnovers", some 19)]]

/-- A batch whose first record carries an extra `assists` field and in
which no record carries a `blocks` field. -/
noncomputable def batchMixed : List Record :=
  [("points", some 1), ("assists", some 2)] ::
    (List.range 19).map (fun k : ℕ => [("points", some (k : ℝ))])

/-- A one-category config used to exercise the impact-weighted path. -/
noncomputable def cfg9 : ZConfig where
  categories := ["field_goal_percentage"]
  negative_categories := []
  weights := [("field_goal_percentage", 1 / 2)]
  min_sample_size := none

/-- A 20-record batch with four valid shooters.  Records 0 and 1 share
the percentage 1/2 on 1 and 2 attempts; record 2 is a high-volume
shooter whose large positive impact drags the mean impact above both;
records 4–19 lack the attempts field and are invalid. -/
noncomputable def c9Batch : List Record :=
  [[("field_goal_percentage", some (1 / 2)), ("field_goals_attempted", some 1)],
   [("field_goal_percentage", some (1 / 2)), ("field_goals_attempted", some 2)],
   [("field_goal_percentage", some (9 / 20)), ("field_goals_attempted", some 200)],
   [("field_goal_percentage", some (1 / 5)), ("field_goals_attempted", some 1)]]
  ++ (List.range 16).map (fun _ : ℕ => [("field_goal_percentage", some ((1 : ℝ) / 2))])

/-! ### Dictionary lemmas -/

theorem dictGet_eq_none {r : Record} {k : Field} :
    dictGet r k = none ↔ k ∉ dictKeys r := by
  induction r with
  | nil => simp [dictGet, dictKeys]
  | cons p t ih =>
    by_cases h : p.1 = k
    · subst h
      simp [dictGet, List.find?, dictKeys]
    · have hb : (p.1 == k) = false := by simp [h]
      have hstep : dictGet (p :: t) k = dictGet t k := by
        rw [dictGet, dictGet]
        simp [List.find?, hb]
      have h' : ¬ k = p.1 := fun hc => h hc.symm
      rw [hstep, ih, dictKeys, dictKeys]
      simp [h']

theorem dictGet_set_self (r : Record) (k : Field) (v : Option ℝ) :
    dictGet (dictSet r k v) k = some v := by
  induction r with
  | nil => simp [dictGet, dictSet]
  | cons p t ih =>
    by_cases h : p.1 = k
    · simp [dictGet, dictSet, List.find?, h]
    · have hb : (p.1 == k) = false := by simp [h]
      simp only [dictSet, hb, Bool.false_eq_true, if_false]
      rw [dictGet] at ih ⊢
      simp only [List.find?, hb]
      exact ih

theorem dictGet_set_ne (r : Record) {k k' : Field} (v : Option ℝ)
    (hne : k' ≠ k) : dictGet (dictSet r k v) k' = dictGet r k' := by
  induction r with
  | nil =>
    have hb : (k == k') = false := by
      simp only [beq_eq_false_iff_ne, ne_eq]
      exact fun h => hne h.symm
    simp [dictGet, dictSet, List.find?, hb]
  | cons p t ih =>
    by_cases h : p.1 = k
    · have hb : (p.1 == k) = true := by simp [h]
      have hb' : (p.1 == k') = false := by
        simp only [beq_eq_false_iff_ne, ne_eq]
        intro hc
        exact hne (hc ▸ h ▸ rfl)
      simp [dictGet, dictSet, List.find?, hb, hb']
    · have hb : (p.1 == k) = false := by simp [h]
      simp only [dictSet, hb, Bool.false_eq_true, if_false]
      rw [dictGet] at ih ⊢
      rw [dictGet]
      simp only [List.find?]
      cases hb' : (p.1 == k') with
      | true => simp
      | false =>
        rw [dictGet] at ih
        exact ih

theorem stripField_dictSet (r : Record) (k : Field) (v : Option ℝ) :
    stripField k (dictSet r k v) = stripField k r := by
  induction r with
  | nil => simp [stripField, dictSet]
  | cons p t ih =>
    by_cases h : p.1 = k
    · have hb : (p.1 == k) = true := by simp [h]
      simp [stripField, dictSet, List.filter, hb]
    · have hb : (p.1 == k) = false := by simp [h]
      simp only [dictSet, hb, Bool.false_eq_true, if_false]
      simp only [stripField, List.filter, hb, Bool.not_false] at ih ⊢
      rw [ih]

theorem stripField_of_not_mem {r : Record} {k : Field}
    (h : k ∉ dictKeys r) : stripField k r = r := by
  rw [stripField, List.filter_eq_self]
  intro p hp
  simp only [Bool.not_eq_eq_eq_not, Bool.not_true, beq_eq_false_iff_ne, ne_eq]
  intro hpk
  exact h (List.mem_map.mpr ⟨p, hp, hpk⟩)

theorem sortKey_dictSet {col k : Field} (r : Record) (v : Option ℝ)
    (hne : col ≠ k) : sortKey col (dictSet r k v) = sortKey col r := by
  rw [sortKey, sortKey, dictGet_set_ne r v hne]

/-! ### Stable descending insertion sort: the model of Python `sorted`
with `reverse=True` -/

theorem insertDescBy_perm (key : Record → ℝ) (r : Record) (l : List Record) :
    (insertDescBy key r l).Perm (r :: l) := by
  induction l with
  | nil => simp [insertDescBy]
  | cons x xs ih =>
    rw [insertDescBy]
    split
    · exact List.Perm.refl _
    · exact (List.Perm.cons x ih).trans (List.Perm.swap r x xs)

theorem sortDescBy_perm (key : Record → ℝ) (l : List Record) :
    (sortDescBy key l).Perm l := by
  induction l with
  | nil => simp [sortDescBy]
  | cons x xs ih =>
    rw [sortDescBy]
    exact (insertDescBy_perm key x (sortDescBy key xs)).trans (List.Perm.cons x ih)

theorem insertDescBy_pairwise {key : Record → ℝ} {r : Record} {l : List Record}
    (h : l.Pairwise (fun a b => key b ≤ key a)) :
    (insertDescBy key r l).Pairwise (fun a b => key b ≤ key a) := by
  induction l with
  | nil => simp [insertDescBy]
  | cons x xs ih =>
    rw [insertDescBy]
    rw [List.pairwise_cons] at h
    split
    · rename_i hle
      rw [List.pairwise_cons]
      refine ⟨?_, List.pairwise_cons.mpr h⟩
      intro b hb
      rcases List.mem_cons.mp hb with hbx | hbxs
      · exact hbx ▸ hle
      · exact le_trans (h.1 b hbxs) hle
    · rename_i hgt
      push_neg at hgt
      rw [List.pairwise_cons]
      refine ⟨?_, ih h.2⟩
      intro b hb
      rcases List.mem_cons.mp ((insertDescBy_perm key r xs).mem_iff.mp hb) with hbr | hbxs
      · exact hbr ▸ le_of_lt hgt
      · exact h.1 b hbxs

theorem sortDescBy_pairwise (key : Record → ℝ) (l : List Record) :
    (sortDescBy key l).Pairwise (fun a b => key b ≤ key a) := by
  induction l with
  | nil => simp [sortDescBy]
  | cons x xs ih =>
    rw [sortDescBy]
    exact insertDescBy_pairwise ih

theorem insertDescBy_filter_ne {key : Record → ℝ} {p : Record → Bool}
    {r : Record} (hp : p r = false) (l : List Record) :
    (insertDescBy key r l).filter p = l.filter p := by
  induction l with
  | nil => simp [insertDescBy, hp]
  | cons x xs ih =>
    rw [insertDescBy]
    split
    · simp [List.filter, hp]
    · simp only [List.filter, ih]

theorem insertDescBy_filter_eq {key : Record → ℝ} (r : Record)
    (l : List Record) :
    (insertDescBy key r l).filter (fun b => decide (key b = key r))
      = r :: l.filter (fun b => decide (key b = key r)) := by
  induction l with
  | nil => simp [insertDescBy]
  | cons x xs ih =>
    rw [insertDescBy]
    split
    · simp [List.filter]
    · rename_i hgt
      push_neg at hgt
      have hx : (decide (key x = key r)) = false := by
        simp only [decide_eq_false_iff_not]
        intro h
        exact absurd h.ge (not_le.mpr (h ▸ hgt))
      simp only [List.filter, hx, ih]

theorem sortDescBy_filter (key : Record → ℝ) (l : List Record) (q : ℝ) :
    (sortDescBy key l).filter (fun b => decide (key b = q))
      = l.filter (fun b => decide (key b = q)) := by
  induction l with
  | nil => simp [sortDescBy]
  | cons x xs ih =>
    rw [sortDescBy]
    by_cases hxq : key x = q
    · subst hxq
      rw [insertDescBy_filter_eq x (sortDescBy key xs)]
      simp only [List.filter, decide_True, ih]
    · have hx : (decide (key x = q)) = false := by simp [hxq]
      rw [insertDescBy_filter_ne hx]
      simp only [List.filter, hx, ih]

theorem sortDescBy_of_const {key : Record → ℝ} {l : List Record} {c : ℝ}
    (h : ∀ r ∈ l, key r = c) : sortDescBy key l = l := by
  induction l with
  | nil => simp [sortDescBy]
  | cons x xs ih =>
    rw [sortDescBy]
    have hxs : sortDescBy key xs = xs := ih (fun r hr => h r (List.mem_cons_of_mem x hr))
    rw [hxs]
    cases xs with
    | nil => simp [insertDescBy]
    | cons y ys =>
      rw [insertDescBy]
      rw [if_pos]
      rw [h y (by simp), h x (by simp)]

/-! ### Rank assignment -/

theorem addRanks_map_strip {f : Field} {l : List Record}
    (h : ∀ r ∈ l, f ∉ dictKeys r) :
    (addRanks f l).map (stripField f) = l := by
  rw [addRanks, List.map_map]
  have : ∀ p ∈ l.zip (List.range l.length),
      (stripField f ∘ fun p : Record × ℕ => dictSet p.1 f (some ((p.2 : ℝ) + 1))) p = p.1 := by
    intro p hp
    have hp1 : p.1 ∈ l := (List.of_mem_zip hp).1
    simp only [Function.comp_apply]
    rw [stripField_dictSet, stripField_of_not_mem (h p.1 hp1)]
  rw [List.map_congr_left this]
  exact List.map_fst_zip l (List.range l.length) (by simp)

theorem addRanks_ranks (f : Field) (l : List Record) :
    (addRanks f l).map (fun r => dictGet r f)
      = (List.range l.length).map (fun i : ℕ => some (some ((i : ℝ) + 1))) := by
  rw [addRanks, List.map_map]
  have h2 : ((fun r => dictGet r f) ∘ fun p : Record × ℕ => dictSet p.1 f (some ((p.2 : ℝ) + 1)))
      = (fun i : ℕ => some (some ((i : ℝ) + 1))) ∘ Prod.snd := by
    funext p
    exact dictGet_set_self p.1 f _
  rw [h2, ← List.map_map]
  rw [List.map_snd_zip l (List.range l.length) (by simp)]

theorem pairwise_fst_zip {α β : Type _} {R : α → α → Prop} :
    ∀ {l : List α} (l' : List β), l.Pairwise R →
      (l.zip l').Pairwise (fun p q => R p.1 q.1)
  | [], _, _ => by simp
  | _ :: _, [], _ => by simp
  | x :: xs, y :: ys, h => by
    rw [List.zip_cons_cons, List.pairwise_cons]
    rw [List.pairwise_cons] at h
    refine ⟨?_, pairwise_fst_zip ys h.2⟩
    intro q hq
    exact h.1 q.1 (List.of_mem_zip hq).1

theorem addRanks_pairwise {key : Record → ℝ} {f : Field} {l : List Record}
    (hne : ∀ r : Record, ∀ v : Option ℝ, key (dictSet r f v) = key r)
    (h : l.Pairwise (fun a b => key b ≤ key a)) :
    (addRanks f l).Pairwise (fun a b => key b ≤ key a) := by
  rw [addRanks, List.pairwise_map]
  have := pairwise_fst_zip (List.range l.length) h
  refine this.imp ?_
  intro p q hpq
  rw [hne, hne]
  exact hpq

/-! ### C5, C7, C8, C10 and their witnesses -/

theorem smallBatch_length : smallBatch.length = 5 := by
  rw [smallBatch, List.length_map, List.length_range]

/-- **C5.** A batch smaller than `min_sample_size` is returned unchanged
by `calculate_zscores`: no field is added, removed or reordered and no
exception is raised (the source only logs a warning). -/
theorem C5_small_batch_pass_through (zc : ZScoreCalculator) (l : List Record)
    (h : l.length < zc.min_sample_size) :
    calculate_zscores zc l = l := by
  rw [calculate_zscores, if_pos h]

theorem C5_witness :
    smallBatch.length < (ZScoreCalculator.init ZSCORE_CONFIG).min_sample_size
      ∧ calculate_zscores (ZScoreCalculator.init ZSCORE_CONFIG) smallBatch = smallBatch := by
  have hlen : smallBatch.length < (ZScoreCalculator.init ZSCORE_CONFIG).min_sample_size := by
    rw [smallBatch_length]
    norm_num [ZScoreCalculator.init]
  exact ⟨hlen, C5_small_batch_pass_through _ _ hlen⟩

/-- **C7.** `get_overall_rankings` returns the records sorted in
descending order of `zscore_total` with ties kept in input order
(stable sort, no secondary key), and assigns `overall_rank` 1, …, N
down the sorted list, so each rank is assigned exactly once. -/
theorem C7_overall_rankings (l : List Record)
    (h : ∀ r ∈ l, dictGet r "overall_rank" = none) :
    ((get_overall_rankings l).map (stripField "overall_rank")).Perm l
    ∧ (get_overall_rankings l).Pairwise
        (fun a b => sortKey "zscore_total" b ≤ sortKey "zscore_total" a)
    ∧ (∀ q : ℝ, ((get_overall_rankings l).map (stripField "overall_rank")).filter
          (fun r => decide (sortKey "zscore_total" r = q))
        = l.filter (fun r => decide (sortKey "zscore_total" r = q)))
    ∧ (get_overall_rankings l).map (fun r => dictGet r "overall_rank")
        = (List.range l.length).map (fun i : ℕ => some (some ((i : ℝ) + 1))) := by
  by_cases hl : l = []
  · subst hl
    simp [get_overall_rankings]
  · rw [get_overall_rankings, if_neg hl]
    have hs : ∀ r ∈ sortDescBy (sortKey "zscore_total") l, "overall_rank" ∉ dictKeys r :=
      fun r hr => dictGet_eq_none.mp
        (h r ((sortDescBy_perm (sortKey "zscore_total") l).subset hr))
    have hstrip := addRanks_map_strip hs
    refine ⟨?_, ?_, ?_, ?_⟩
    · rw [hstrip]
      exact sortDescBy_perm _ l
    · refine addRanks_pairwise (fun r v => sortKey_dictSet r v ?_)
        (sortDescBy_pairwise _ l)
      decide
    · intro q
      rw [hstrip]
      exact sortDescBy_filter _ l q
    · rw [addRanks_ranks, (sortDescBy_perm (sortKey "zscore_total") l).length_eq]

theorem C7_witness :
    (∀ r ∈ smallBatch, dictGet r "overall_rank" = none)
    ∧ (((get_overall_rankings smallBatch).map (stripField "overall_rank")).Perm smallBatch
    ∧ (get_overall_rankings smallBatch).Pairwise
        (fun a b => sortKey "zscore_total" b ≤ sortKey "zscore_total" a)
    ∧ (∀ q : ℝ, ((get_overall_rankings smallBatch).map (stripField "overall_rank")).filter
          (fun r => decide (sortKey "zscore_total" r = q))
        = smallBatch.filter (fun r => decide (sortKey "zscore_total" r = q)))
    ∧ (get_overall_rankings smallBatch).map (fun r => dictGet r "overall_rank")
        = (List.range smallBatch.length).map (fun i : ℕ => some (some ((i : ℝ) + 1)))) := by
  have h : ∀ r ∈ smallBatch, dictGet r "overall_rank" = none := by
    intro r hr
    rw [smallBatch] at hr
    obtain ⟨k, _, rfl⟩ := List.mem_map.mp hr
    rw [dictGet]
    simp [List.find?]
  exact ⟨h, C7_overall_rankings smallBatch h⟩

/-- **C10.** The ranking operations are total even when the sort key is
absent: a record lacking the key sorts as 0, so ranking an unscored
(small-batch pass-through) batch succeeds, leaves the records in input
order and assigns ranks 1, …, N, for both `get_overall_rankings` and
`get_category_rankings`. -/
theorem C10_rankings_total_on_unscored (l : List Record) (category : Field)
    (h1 : ∀ r ∈ l, dictGet r "zscore_total" = none)
    (h2 : ∀ r ∈ l, dictGet r ("zscore_" ++ category) = none)
    (h3 : ∀ r ∈ l, dictGet r "overall_rank" = none)
    (h4 : ∀ r ∈ l, dictGet r (category ++ "_rank") = none) :
    (get_overall_rankings l).map (stripField "overall_rank") = l
    ∧ (get_overall_rankings l).map (fun r => dictGet r "overall_rank")
        = (List.range l.length).map (fun i : ℕ => some (some ((i : ℝ) + 1)))
    ∧ (get_category_rankings l category).map (stripField (category ++ "_rank")) = l
    ∧ (get_category_rankings l category).map (fun r => dictGet r (category ++ "_rank"))
        = (List.range l.length).map (fun i : ℕ => some (some ((i : ℝ) + 1))) := by
  by_cases hl : l = []
  · subst hl
    simp [get_overall_rankings, get_category_rankings]
  · have hkey1 : ∀ r ∈ l, sortKey "zscore_total" r = 0 := by
      intro r hr
      rw [sortKey, h1 r hr]
    have hkey2 : ∀ r ∈ l, sortKey ("zscore_" ++ category) r = 0 := by
      intro r hr
      rw [sortKey, h2 r hr]
    have hsort1 := sortDescBy_of_const hkey1
    have hsort2 := sortDescBy_of_const hkey2
    rw [get_overall_rankings, if_neg hl, get_category_rankings, if_neg hl, hsort1, hsort2]
    exact ⟨addRanks_map_strip (fun r hr => dictGet_eq_none.mp (h3 r hr)),
      addRanks_ranks _ l,
      addRanks_map_strip (fun r hr => dictGet_eq_none.mp (h4 r hr)),
      addRanks_ranks _ l⟩

theorem C10_witness :
    (∀ r ∈ smallBatch, dictGet r "zscore_total" = none)
    ∧ (∀ r ∈ smallBatch, dictGet r ("zscore_" ++ "points") = none)
    ∧ ((get_overall_rankings smallBatch).map (stripField "overall_rank") = smallBatch
    ∧ (get_overall_rankings smallBatch).map (fun r => dictGet r "overall_rank")
        = (List.range smallBatch.length).map (fun i : ℕ => some (some ((i : ℝ) + 1)))
    ∧ (get_category_rankings smallBatch "points").map (stripField ("points" ++ "_rank")) = smallBatch
    ∧ (get_category_rankings smallBatch "points").map (fun r => dictGet r ("points" ++ "_rank"))
        = (List.range smallBatch.length).map (fun i : ℕ => some (some ((i : ℝ) + 1)))) := by
  have habs : ∀ k : Field, ("points" == k) = false → ∀ r ∈ smallBatch, dictGet r k = none := by
    intro k hk r hr
    rw [smallBatch] at hr
    obtain ⟨j, _, rfl⟩ := List.mem_map.mp hr
    rw [dictGet]
    simp [List.find?, hk]
  refine ⟨habs _ (by decide), habs _ (by decide), ?_⟩
  exact C10_rankings_total_on_unscored smallBatch "points"
    (habs _ (by decide)) (habs _ (by decide)) (habs _ (by decide)) (habs _ (by decide))

theorem batch10_length : batch10.length = 10 := by
  rw [batch10, List.length_map, List.length_range]

/-- **C8, counterexample.** The claim says an instance built from a
config with `min_sample_size = 5` uses 5 as the pass-through threshold;
in the code `__init__` hardcodes 20, so a 10-record batch (≥ the
configured 5) is still returned unscored. -/
theorem C8_counterexample :
    cfgMin5.min_sample_size = some 5
    ∧ (ZScoreCalculator.init cfgMin5).min_sample_size = 20
    ∧ batch10.length = 10
    ∧ calculate_zscores (ZScoreCalculator.init cfgMin5) batch10 = batch10 := by
  refine ⟨rfl, rfl, batch10_length, ?_⟩
  rw [calculate_zscores, if_pos]
  rw [batch10_length]
  norm_num [ZScoreCalculator.init]

/-- **C8, amended.** `min_sample_size` is not configurable: every
instance gets the hardcoded value 20, whatever the config says, and
batches smaller than 20 are returned unscored. -/
theorem C8_min_sample_size_hardcoded (config : ZConfig) (l : List Record) :
    (ZScoreCalculator.init config).min_sample_size = 20
    ∧ (l.length < 20 → calculate_zscores (ZScoreCalculator.init config) l = l) := by
  refine ⟨rfl, fun h => ?_⟩
  rw [calculate_zscores, if_pos]
  exact h

theorem C8_witness :
    smallBatch.length < 20
    ∧ calculate_zscores (ZScoreCalculator.init cfgMin5) smallBatch = smallBatch := by
  have h : smallBatch.length < 20 := by
    rw [smallBatch_length]
    norm_num
  exact ⟨h, (C8_min_sample_size_hardcoded cfgMin5 smallBatch).2 h⟩

/-! ### Facts about the derived column names -/

theorem hasZscorePrefix_append (c : Field) :
    hasZscorePrefix ("zscore_" ++ c) = true := by
  rw [hasZscorePrefix, String.data_append]
  have h7 : ("zscore_".data).length = 7 := rfl
  rw [← h7, List.take_left]
  exact beq_self_eq_true _

theorem zscore_name_inj {a b : Field} (h : "zscore_" ++ a = "zscore_" ++ b) :
    a = b := by
  have hd := congrArg String.data h
  rw [String.data_append, String.data_append] at hd
  exact String.ext (List.append_cancel_left hd)

theorem ne_zscore_name {c : Field} (h : hasZscorePrefix c = false) (t : Field) :
    c ≠ "zscore_" ++ t := by
  intro hc
  rw [hc, hasZscorePrefix_append] at h
  simp at h

/-! ### DataFrame plumbing -/

theorem setCol_nrows (df : DataFrame) (c : Field) (xs : List (Option ℝ)) :
    (df.setCol c xs).nrows = df.nrows := rfl

theorem setCol_val_self (df : DataFrame) (c : Field) (xs : List (Option ℝ))
    (i : ℕ) : (df.setCol c xs).val c i = xs.getD i none := by
  simp [DataFrame.setCol]

theorem setCol_val_ne (df : DataFrame) (c : Field) (xs : List (Option ℝ))
    {c' : Field} (h : c' ≠ c) : (df.setCol c xs).val c' = df.val c' := by
  funext i
  simp [DataFrame.setCol, h]

theorem setCol_mem_cols (df : DataFrame) (c : Field) (xs : List (Option ℝ))
    (c' : Field) : c' ∈ (df.setCol c xs).cols ↔ c' ∈ df.cols ∨ c' = c := by
  rw [DataFrame.setCol]
  by_cases h : c ∈ df.cols
  · rw [if_pos h]
    constructor
    · exact Or.inl
    · rintro (hc | rfl)
      · exact hc
      · exact h
  · rw [if_neg h, List.mem_append, List.mem_singleton]

theorem setCol_cols_of_not_mem (df : DataFrame) {c : Field}
    (xs : List (Option ℝ)) (h : c ∉ df.cols) :
    (df.setCol c xs).cols = df.cols ++ [c] := by
  rw [DataFrame.setCol, if_neg h]

theorem col_congr {df df' : DataFrame} {c : Field}
    (hn : df.nrows = df'.nrows) (hv : df.val c = df'.val c) :
    df.col c = df'.col c := by
  rw [DataFrame.col, DataFrame.col, hn, hv]

/-! ### One iteration of the per-category loop -/

theorem processCategory_nrows (negs : List Field) (df : DataFrame)
    (category : Field) :
    (processCategory negs df category).nrows = df.nrows := by
  rw [processCategory]
  split
  · rfl
  · split <;> rfl

theorem processCategory_val_ne (negs : List Field) (df : DataFrame)
    (category : Field) {col : Field} (h : col ≠ "zscore_" ++ category) :
    (processCategory negs df category).val col = df.val col := by
  rw [processCategory]
  split
  · rfl
  · split
    · exact setCol_val_ne _ _ _ h
    · exact setCol_val_ne _ _ _ h

theorem processCategory_mem_cols (negs : List Field) (df : DataFrame)
    (category col : Field) :
    col ∈ (processCategory negs df category).cols ↔
      col ∈ df.cols ∨ (category ∈ df.cols ∧ col = "zscore_" ++ category) := by
  rw [processCategory]
  split
  · rename_i hc
    simp [hc]
  · rename_i hc
    rw [not_not] at hc
    split
    · rw [setCol_mem_cols]
      simp [hc]
    · rw [setCol_mem_cols]
      simp [hc]

theorem processCategory_val_self (negs : List Field) (df : DataFrame)
    {category : Field} (h : category ∈ df.cols) (i : ℕ) :
    (processCategory negs df category).val ("zscore_" ++ category) i
      = ((zColumn negs df category).map some).getD i none := by
  rw [processCategory, zColumn, if_neg (not_not_intro h)]
  by_cases hr : category = "field_goal_percentage" ∨ category = "free_throw_percentage"
  · rw [if_pos hr, if_pos hr, setCol_val_self]
  · rw [if_neg hr, if_neg hr, setCol_val_self]

theorem processCategory_cols_absent (negs : List Field) (df : DataFrame)
    {category : Field} (h : category ∉ df.cols) :
    (processCategory negs df category).cols = df.cols := by
  rw [processCategory, if_pos h]

theorem processCategory_cols_present (negs : List Field) (df : DataFrame)
    {category : Field} (h : category ∈ df.cols)
    (hz : ("zscore_" ++ category) ∉ df.cols) :
    (processCategory negs df category).cols = df.cols ++ ["zscore_" ++ category] := by
  rw [processCategory, if_neg (not_not_intro h)]
  split
  · exact setCol_cols_of_not_mem df _ hz
  · exact setCol_cols_of_not_mem df _ hz

/-! ### The iteration reads only non-derived columns, so its output is
determined by the original frame -/

theorem impactZ_congr {df base : DataFrame} (category : Field)
    (hn : df.nrows = base.nrows)
    (hv : ∀ c : Field, hasZscorePrefix c = false →
        df.val c = base.val c ∧ (c ∈ df.cols ↔ c ∈ base.cols))
    (hc : hasZscorePrefix category = false) :
    impactZ df category = impactZ base category := by
  have hcol : df.col category = base.col category :=
    col_congr hn (hv category hc).1
  rw [impactZ, impactZ]
  by_cases h1 : category = "field_goal_percentage"
  · subst h1
    obtain ⟨hva, hma⟩ := hv "field_goals_attempted" (by decide)
    obtain ⟨hvc, _⟩ := hv "field_goal_percentage" (by decide)
    simp only [reduceIte, hn, hva, hvc, hma, hcol]
  · by_cases h2 : category = "free_throw_percentage"
    · subst h2
      obtain ⟨hva, hma⟩ := hv "free_throws_attempted" (by decide)
      obtain ⟨hvc, _⟩ := hv "free_throw_percentage" (by decide)
      rw [if_neg (by decide : ¬ ("free_throw_percentage" : Field) = "field_goal_percentage")]
      simp only [reduceIte, hn, hva, hvc, hma, hcol]
    · simp only [if_neg h1, if_neg h2, hcol]

theorem zColumn_congr {df base : DataFrame} (negs : List Field)
    (category : Field) (hn : df.nrows = base.nrows)
    (hv : ∀ c : Field, hasZscorePrefix c = false →
        df.val c = base.val c ∧ (c ∈ df.cols ↔ c ∈ base.cols))
    (hc : hasZscorePrefix category = false) :
    zColumn negs df category = zColumn negs base category := by
  rw [zColumn, zColumn]
  by_cases hr : category = "field_goal_percentage" ∨ category = "free_throw_percentage"
  · rw [if_pos hr, if_pos hr]
    exact impactZ_congr category hn hv hc
  · rw [if_neg hr, if_neg hr, col_congr hn (hv category hc).1]

/-! ### The per-category fold -/

theorem foldCats_spec (negs : List Field) (base : DataFrame) :
    ∀ (cats : List Field) (df : DataFrame),
    df.nrows = base.nrows →
    (∀ c : Field, hasZscorePrefix c = false →
        df.val c = base.val c ∧ (c ∈ df.cols ↔ c ∈ base.cols)) →
    (∀ c ∈ cats, hasZscorePrefix c = false) →
    (∀ c ∈ cats, ("zscore_" ++ c) ∉ df.cols) →
    cats.Nodup →
    (cats.foldl (processCategory negs) df).nrows = base.nrows
    ∧ (∀ col : Field, (∀ c ∈ cats, ("zscore_" ++ c) ≠ col) →
        (cats.foldl (processCategory negs) df).val col = df.val col
        ∧ (col ∈ (cats.foldl (processCategory negs) df).cols ↔ col ∈ df.cols))
    ∧ (∀ c ∈ cats, c ∈ base.cols → ∀ i : ℕ,
        (cats.foldl (processCategory negs) df).val ("zscore_" ++ c) i
          = ((zColumn negs base c).map some).getD i none)
    ∧ (cats.foldl (processCategory negs) df).cols
        = df.cols ++ (cats.filter (fun c => decide (c ∈ base.cols))).map
            (fun c => "zscore_" ++ c) := by
  intro cats
  induction cats with
  | nil =>
    intro df hn hv _ _ _
    refine ⟨hn, fun col _ => ⟨rfl, Iff.rfl⟩, by simp, by simp⟩
  | cons cat cs ih =>
    intro df hn hv hcats hfresh hnd
    have hcat : hasZscorePrefix cat = false := hcats cat (List.mem_cons_self cat cs)
    have hcatmem : cat ∈ df.cols ↔ cat ∈ base.cols := (hv cat hcat).2
    have hcatnotin : cat ∉ cs := (List.nodup_cons.mp hnd).1
    have hnd' : cs.Nodup := (List.nodup_cons.mp hnd).2
    set df' := processCategory negs df cat with hdf'
    have hn' : df'.nrows = base.nrows := by
      rw [hdf', processCategory_nrows]
      exact hn
    have hv' : ∀ c : Field, hasZscorePrefix c = false →
        df'.val c = base.val c ∧ (c ∈ df'.cols ↔ c ∈ base.cols) := by
      intro c hc
      have hne : c ≠ "zscore_" ++ cat := ne_zscore_name hc cat
      constructor
      · rw [hdf', processCategory_val_ne negs df cat hne]
        exact (hv c hc).1
      · rw [hdf', processCategory_mem_cols]
        have : ¬ (cat ∈ df.cols ∧ c = "zscore_" ++ cat) := fun hx => hne hx.2
        simp only [this, or_false]
        exact (hv c hc).2
    have hcs' : ∀ c ∈ cs, hasZscorePrefix c = false :=
      fun c hc => hcats c (List.mem_cons_of_mem cat hc)
    have hfresh' : ∀ c ∈ cs, ("zscore_" ++ c) ∉ df'.cols := by
      intro c hc
      rw [hdf', processCategory_mem_cols]
      rintro (hmem | ⟨-, heq⟩)
      · exact hfresh c (List.mem_cons_of_mem cat hc) hmem
      · exact hcatnotin (zscore_name_inj heq ▸ hc)
    obtain ⟨ihn, ihval, ihz, ihcols⟩ := ih df' hn' hv' hcs' hfresh' hnd'
    have hfoldstep : (cat :: cs).foldl (processCategory negs) df
        = cs.foldl (processCategory negs) df' := by
      rw [List.foldl_cons, hdf']
    refine ⟨by rw [hfoldstep]; exact ihn, ?_, ?_, ?_⟩
    · intro col hcol
      have hcolcs : ∀ c ∈ cs, ("zscore_" ++ c) ≠ col :=
        fun c hc => hcol c (List.mem_cons_of_mem cat hc)
      have hcolcat : ("zscore_" ++ cat) ≠ col := hcol cat (List.mem_cons_self cat cs)
      obtain ⟨hval, hmem⟩ := ihval col hcolcs
      rw [hfoldstep]
      constructor
      · rw [hval, hdf', processCategory_val_ne negs df cat (Ne.symm hcolcat)]
      · rw [hmem, hdf', processCategory_mem_cols]
        have : ¬ (cat ∈ df.cols ∧ col = "zscore_" ++ cat) :=
          fun hx => hcolcat hx.2.symm
        simp [this]
    · intro c hc hcbase i
      rw [hfoldstep]
      rcases List.mem_cons.mp hc with rfl | hmemcs
      · have hval : (cs.foldl (processCategory negs) df').val ("zscore_" ++ c)
            = df'.val ("zscore_" ++ c) := by
          refine (ihval ("zscore_" ++ c) ?_).1
          intro c' hc' heq
          exact hcatnotin (zscore_name_inj heq ▸ hc')
        rw [hval, hdf',
          processCategory_val_self negs df (hcatmem.mpr hcbase) i,
          zColumn_congr negs c hn hv hcat]
      · exact ihz c hmemcs hcbase i
    · rw [hfoldstep, ihcols]
      by_cases hpres : cat ∈ base.cols
      · have hpres' : cat ∈ df.cols := hcatmem.mpr hpres
        have hzfresh : ("zscore_" ++ cat) ∉ df.cols :=
          hfresh cat (List.mem_cons_self cat cs)
        rw [hdf', processCategory_cols_present negs df hpres' hzfresh]
        simp [List.filter_cons, hpres, List.append_assoc]
      · have hpres' : cat ∉ df.cols := fun hx => hpres (hcatmem.mp hx)
        rw [hdf', processCategory_cols_absent negs df hpres']
        simp [List.filter_cons, hpres]

/-! ### Elementary facts about the statistics helpers -/

theorem lvar_nonneg (xs : List ℝ) : 0 ≤ lvar xs := by
  rw [lvar]
  rcases xs with _ | ⟨a, t⟩
  · simp
  · rcases t with _ | ⟨b, t'⟩
    · rw [show (((([a] : List ℝ).length : ℝ)) - 1) = 0 by norm_num, div_zero]
    · apply div_nonneg
      · apply List.sum_nonneg
        intro x hx
        obtain ⟨y, -, rfl⟩ := List.mem_map.mp hx
        positivity
      · have : (2 : ℝ) ≤ ((a :: b :: t').length : ℝ) := by
          simp only [List.length_cons]
          push_cast
          linarith [Nat.cast_nonneg (α := ℝ) t'.length]
        linarith

theorem lstd_nonneg (xs : List ℝ) : 0 ≤ lstd xs := Real.sqrt_nonneg _

theorem lstd_eq_zero_iff (xs : List ℝ) : lstd xs = 0 ↔ lvar xs = 0 := by
  rw [lstd, Real.sqrt_eq_zero (lvar_nonneg xs)]

theorem lstd_pos_of_ne {xs : List ℝ} (h : lstd xs ≠ 0) : 0 < lstd xs :=
  lt_of_le_of_ne (lstd_nonneg xs) (Ne.symm h)

/-! ### `getD` plumbing -/

theorem getD_map_of_lt {α β : Type _} (f : α → β) :
    ∀ (l : List α) (i : ℕ), i < l.length → ∀ (d : β) (d' : α),
      (l.map f).getD i d = f (l.getD i d')
  | [], i, h => absurd h (by simp)
  | _ :: _, 0, _ => fun _ _ => rfl
  | _ :: t, i + 1, h => fun d d' =>
    getD_map_of_lt f t i (by simpa using h) d d'

theorem getD_replicate_eq {α : Type _} (d : α) :
    ∀ (n i : ℕ), (List.replicate n d).getD i d = d
  | 0, _ => by simp
  | _ + 1, 0 => rfl
  | n + 1, i + 1 => getD_replicate_eq d n i

theorem getD_range_of_lt {n i : ℕ} (h : i < n) : (List.range n).getD i 0 = i := by
  rw [List.getD_eq_getElem?_getD, List.getElem?_range h]
  rfl

theorem fillna_length (xs : List (Option ℝ)) : (fillna xs).length = xs.length := by
  rw [fillna, List.length_map]

theorem fillna_getD (xs : List (Option ℝ)) {i : ℕ} (h : i < xs.length) :
    (fillna xs).getD i 0 = (xs.getD i none).getD 0 := by
  rw [fillna, getD_map_of_lt _ xs i h 0 none]

/-! ### `to_dict('records')` -/

theorem toRecords_length (df : DataFrame) : (toRecords df).length = df.nrows := by
  rw [toRecords, List.length_map, List.length_range]

theorem toRecords_getD (df : DataFrame) {i : ℕ} (h : i < df.nrows) :
    (toRecords df).getD i [] = df.cols.map (fun c => (c, df.val c i)) := by
  rw [toRecords, List.getD_eq_getElem?_getD, List.getElem?_map, List.getElem?_range h]
  rfl

theorem dictKeys_map_pair (cols : List Field) (g : Field → Option ℝ) :
    dictKeys (cols.map (fun c => (c, g c))) = cols := by
  rw [dictKeys, List.map_map]
  have : ((fun p : Field × Option ℝ => p.1) ∘ fun c => (c, g c)) = id := rfl
  rw [this, List.map_id]

theorem dictGet_map_pair (g : Field → Option ℝ) (k : Field) :
    ∀ cols : List Field,
      dictGet (cols.map (fun c => (c, g c))) k
        = if k ∈ cols then some (g k) else none
  | [] => by simp [dictGet]
  | c :: t => by
    by_cases h : c = k
    · subst h
      simp [dictGet, List.find?]
    · have hb : (c == k) = false := by simp [h]
      have h' : ¬ k = c := fun hc => h hc.symm
      have step : dictGet ((c :: t).map (fun c => (c, g c))) k
          = dictGet (t.map (fun c => (c, g c))) k := by
        rw [dictGet, dictGet]
        simp [List.find?, hb]
      rw [step, dictGet_map_pair g k t]
      simp [List.mem_cons, h']

/-! ### The scoring pipeline, stage by stage -/

theorem foldl_processCategory_nrows (negs : List Field) :
    ∀ (cats : List Field) (df : DataFrame),
      (cats.foldl (processCategory negs) df).nrows = df.nrows
  | [], _ => rfl
  | cat :: cs, df => by
    rw [List.foldl_cons, foldl_processCategory_nrows negs cs,
      processCategory_nrows]

theorem calculate_zscores_eq_toRecords (zc : ZScoreCalculator)
    (rs : List Record) (h : zc.min_sample_size ≤ rs.length) :
    calculate_zscores zc rs = toRecords (finalFrame zc rs) := by
  rw [calculate_zscores, if_neg (not_lt.mpr h), finalFrame, frameAfterFlip,
    frameAfterCats]

theorem frameAfterCats_nrows (zc : ZScoreCalculator) (rs : List Record) :
    (frameAfterCats zc rs).nrows = rs.length := by
  rw [frameAfterCats, foldl_processCategory_nrows]
  rfl

theorem frameAfterFlip_nrows (zc : ZScoreCalculator) (rs : List Record) :
    (frameAfterFlip zc rs).nrows = rs.length := by
  rw [frameAfterFlip]
  split
  · rw [setCol_nrows, frameAfterCats_nrows]
  · rw [frameAfterCats_nrows]

theorem finalFrame_nrows (zc : ZScoreCalculator) (rs : List Record) :
    (finalFrame zc rs).nrows = rs.length := by
  rw [finalFrame, setCol_nrows, frameAfterFlip_nrows]

theorem frameAfterFlip_cols (zc : ZScoreCalculator) (rs : List Record) :
    (frameAfterFlip zc rs).cols = (frameAfterCats zc rs).cols := by
  rw [frameAfterFlip]
  split
  · rename_i hmem
    rw [DataFrame.setCol, if_pos hmem]
  · rfl

theorem frameAfterFlip_val_ne (zc : ZScoreCalculator) (rs : List Record)
    {col : Field} (h : col ≠ "zscore_turnovers") :
    (frameAfterFlip zc rs).val col = (frameAfterCats zc rs).val col := by
  rw [frameAfterFlip]
  split
  · exact setCol_val_ne _ _ _ h
  · rfl

/-! ### Series lengths -/

theorem standardZ_length (neg : Bool) (column : List (Option ℝ)) :
    (standardZ neg column).length = column.length := by
  rw [standardZ]
  repeat' split
  all_goals rw [List.length_map, fillna_length]

theorem fallbackStd_length (values : List ℝ) :
    (fallbackStd values).length = values.length := by
  rw [fallbackStd]
  split
  · rw [List.length_replicate]
  · rw [List.length_map]

theorem col_length (df : DataFrame) (c : Field) :
    (df.col c).length = df.nrows := by
  rw [DataFrame.col, List.length_map, List.length_range]

theorem col_getD (df : DataFrame) (c : Field) {i : ℕ} (h : i < df.nrows) :
    (df.col c).getD i none = df.val c i := by
  rw [DataFrame.col,
    getD_map_of_lt _ (List.range df.nrows) i (by simpa using h) none 0,
    getD_range_of_lt h]

theorem impactZ_length (df : DataFrame) (category : Field) :
    (impactZ df category).length = df.nrows := by
  dsimp only [impactZ]
  repeat' split
  all_goals first
    | rw [fallbackStd_length, fillna_length, col_length]
    | rw [List.length_replicate]
    | rw [List.length_map, List.length_range]

theorem zColumn_length (negs : List Field) (df : DataFrame) (category : Field) :
    (zColumn negs df category).length = df.nrows := by
  rw [zColumn]
  split
  · rw [impactZ_length]
  · rw [standardZ_length, col_length]

/-! ### The per-category loop, characterised on a sane batch -/

theorem frameAfterCats_spec (zc : ZScoreCalculator) (rs : List Record)
    (hs : SaneSetup zc rs) :
    ((frameAfterCats zc rs).cols
      = mkCols rs ++ (zc.categories.filter (fun c => decide (c ∈ mkCols rs))).map
          (fun c => "zscore_" ++ c))
    ∧ (∀ col : Field, (∀ c ∈ zc.categories, ("zscore_" ++ c) ≠ col) →
        (frameAfterCats zc rs).val col = (mkDataFrame rs).val col)
    ∧ (∀ c ∈ zc.categories, c ∈ mkCols rs → ∀ i : ℕ,
        (frameAfterCats zc rs).val ("zscore_" ++ c) i
          = ((zColumn zc.negative_categories (mkDataFrame rs) c).map some).getD i none) := by
  obtain ⟨hlen, hcats, hclean, hnd, htot⟩ := hs
  have hfresh : ∀ c ∈ zc.categories, ("zscore_" ++ c) ∉ (mkDataFrame rs).cols := by
    intro c _ hmem
    have h := hclean _ hmem
    rw [hasZscorePrefix_append] at h
    exact Bool.noConfusion h
  obtain ⟨-, hval, hz, hcols⟩ := foldCats_spec zc.negative_categories (mkDataFrame rs)
    zc.categories (mkDataFrame rs) rfl (fun c _ => ⟨rfl, Iff.rfl⟩) hcats hfresh hnd
  exact ⟨hcols, fun col hcol => (hval col hcol).1, hz⟩

theorem zscore_turnovers_name : ("zscore_" : Field) ++ "turnovers" = "zscore_turnovers" := by
  decide

theorem zscore_total_name : ("zscore_" : Field) ++ "total" = "zscore_total" := by
  decide

theorem mem_zcols_iff (zc : ZScoreCalculator) (rs : List Record) (c : Field) :
    ("zscore_" ++ c) ∈ (zc.categories.filter (fun c => decide (c ∈ mkCols rs))).map
        (fun c => "zscore_" ++ c)
      ↔ c ∈ zc.categories ∧ c ∈ mkCols rs := by
  rw [List.mem_map]
  constructor
  · rintro ⟨c', hc', heq⟩
    obtain rfl : c' = c := zscore_name_inj heq
    have h := List.mem_filter.mp hc'
    exact ⟨h.1, of_decide_eq_true h.2⟩
  · rintro ⟨h1, h2⟩
    exact ⟨c, List.mem_filter.mpr ⟨h1, decide_eq_true h2⟩, rfl⟩

theorem not_zname_mem_mkCols {rs : List Record}
    (hclean : ∀ c ∈ mkCols rs, hasZscorePrefix c = false) (t : Field) :
    ("zscore_" ++ t) ∉ mkCols rs := by
  intro hmem
  have h := hclean _ hmem
  rw [hasZscorePrefix_append] at h
  exact Bool.noConfusion h

theorem turnovers_scored_iff (zc : ZScoreCalculator) (rs : List Record)
    (hs : SaneSetup zc rs) :
    "zscore_turnovers" ∈ (frameAfterCats zc rs).cols
      ↔ "turnovers" ∈ zc.categories ∧ "turnovers" ∈ mkCols rs := by
  rw [(frameAfterCats_spec zc rs hs).1, List.mem_append, ← zscore_turnovers_name,
    mem_zcols_iff]
  constructor
  · rintro (hmem | hmem)
    · exact absurd hmem (not_zname_mem_mkCols hs.2.2.1 _)
    · exact hmem
  · exact Or.inr

theorem zcat_ne_ztotal {zc : ZScoreCalculator} {cat : Field}
    (hcat : cat ∈ zc.categories) (htot : "total" ∉ zc.categories) :
    ("zscore_" ++ cat) ≠ "zscore_total" := by
  intro h
  rw [← zscore_total_name] at h
  exact htot (zscore_name_inj h ▸ hcat)

theorem finalFrame_cols (zc : ZScoreCalculator) (rs : List Record)
    (hs : SaneSetup zc rs) :
    (finalFrame zc rs).cols = (frameAfterCats zc rs).cols ++ ["zscore_total"] := by
  rw [finalFrame]
  have hfresh : "zscore_total" ∉ (frameAfterFlip zc rs).cols := by
    rw [frameAfterFlip_cols, (frameAfterCats_spec zc rs hs).1, List.mem_append,
      ← zscore_total_name, mem_zcols_iff]
    rintro (hmem | ⟨hmem, -⟩)
    · exact (not_zname_mem_mkCols hs.2.2.1 _) hmem
    · exact hs.2.2.2.2 hmem
  rw [setCol_cols_of_not_mem _ _ hfresh, frameAfterFlip_cols]

theorem finalFrame_val_ne_total (zc : ZScoreCalculator) (rs : List Record)
    {col : Field} (h : col ≠ "zscore_total") :
    (finalFrame zc rs).val col = (frameAfterFlip zc rs).val col := by
  rw [finalFrame]
  exact setCol_val_ne _ _ _ h

/-- The value of the z-column of a configured category present in the
batch, in the final frame: the per-category series, sign-flipped for
turnovers. -/
theorem finalFrame_val_zcat (zc : ZScoreCalculator) (rs : List Record)
    (hs : SaneSetup zc rs) {cat : Field} (hcat : cat ∈ zc.categories)
    (hmem : cat ∈ mkCols rs) {i : ℕ} (hi : i < rs.length) :
    (finalFrame zc rs).val ("zscore_" ++ cat) i
      = some ((zColumn zc.negative_categories (mkDataFrame rs) cat).getD i 0
          * (if cat = "turnovers" then -1 else 1)) := by
  have hzlen : (zColumn zc.negative_categories (mkDataFrame rs) cat).length = rs.length := by
    rw [zColumn_length]
    rfl
  have hcatsval : (frameAfterCats zc rs).val ("zscore_" ++ cat) i
      = some ((zColumn zc.negative_categories (mkDataFrame rs) cat).getD i 0) := by
    rw [(frameAfterCats_spec zc rs hs).2.2 cat hcat hmem i,
      getD_map_of_lt some _ i (by rw [hzlen]; exact hi) none 0]
  rw [finalFrame_val_ne_total zc rs (zcat_ne_ztotal hcat hs.2.2.2.2)]
  by_cases htov : cat = "turnovers"
  · subst htov
    have hscored : "zscore_turnovers" ∈ (frameAfterCats zc rs).cols :=
      (turnovers_scored_iff zc rs hs).mpr ⟨hcat, hmem⟩
    rw [frameAfterFlip, if_pos hscored, zscore_turnovers_name] at *
    rw [setCol_val_self]
    have hn : i < (frameAfterCats zc rs).nrows := by
      rw [frameAfterCats_nrows]
      exact hi
    rw [getD_map_of_lt _ _ i (by rw [col_length]; exact hn) none none,
      col_getD _ _ hn, hcatsval]
    simp
  · have hne : ("zscore_" ++ cat) ≠ "zscore_turnovers" := by
      intro h
      rw [← zscore_turnovers_name] at h
      exact htov (zscore_name_inj h)
    rw [frameAfterFlip_val_ne zc rs hne, hcatsval, if_neg htov, mul_one]

/-- The value of a non-derived (input) column in the final frame. -/
theorem finalFrame_val_input (zc : ZScoreCalculator) (rs : List Record)
    (hs : SaneSetup zc rs) {col : Field} (hcol : hasZscorePrefix col = false) :
    (finalFrame zc rs).val col = (mkDataFrame rs).val col := by
  have h1 : col ≠ "zscore_total" := by
    intro h
    rw [← zscore_total_name] at h
    exact absurd hcol (by rw [h, hasZscorePrefix_append]; simp)
  have h2 : col ≠ "zscore_turnovers" := by
    intro h
    rw [← zscore_turnovers_name] at h
    exact absurd hcol (by rw [h, hasZscorePrefix_append]; simp)
  rw [finalFrame_val_ne_total zc rs h1, frameAfterFlip_val_ne zc rs h2]
  exact (frameAfterCats_spec zc rs hs).2.1 col
    (fun c _ heq => absurd hcol (by rw [← heq, hasZscorePrefix_append]; simp))

/-- The composite column of the final frame. -/
theorem finalFrame_val_total (zc : ZScoreCalculator) (rs : List Record) (i : ℕ) :
    (finalFrame zc rs).val "zscore_total" i
      = ((compositeZ zc (frameAfterFlip zc rs)).map some).getD i none := by
  rw [finalFrame, setCol_val_self]

/-! ### The returned records of a sane scored batch -/

theorem calculate_getD (zc : ZScoreCalculator) (rs : List Record)
    (hmin : zc.min_sample_size ≤ rs.length) {i : ℕ} (hi : i < rs.length) :
    (calculate_zscores zc rs).getD i []
      = (finalFrame zc rs).cols.map (fun c => (c, (finalFrame zc rs).val c i)) := by
  rw [calculate_zscores_eq_toRecords zc rs hmin,
    toRecords_getD _ (by rw [finalFrame_nrows]; exact hi)]

theorem calculate_length (zc : ZScoreCalculator) (rs : List Record)
    (hmin : zc.min_sample_size ≤ rs.length) :
    (calculate_zscores zc rs).length = rs.length := by
  rw [calculate_zscores_eq_toRecords zc rs hmin, toRecords_length, finalFrame_nrows]

theorem calculate_dictKeys (zc : ZScoreCalculator) (rs : List Record)
    (hmin : zc.min_sample_size ≤ rs.length) {i : ℕ} (hi : i < rs.length) :
    dictKeys ((calculate_zscores zc rs).getD i []) = (finalFrame zc rs).cols := by
  rw [calculate_getD zc rs hmin hi, dictKeys_map_pair]

theorem calculate_dictGet (zc : ZScoreCalculator) (rs : List Record)
    (hmin : zc.min_sample_size ≤ rs.length) {i : ℕ} (hi : i < rs.length)
    (k : Field) :
    dictGet ((calculate_zscores zc rs).getD i []) k
      = if k ∈ (finalFrame zc rs).cols then some ((finalFrame zc rs).val k i)
        else none := by
  rw [calculate_getD zc rs hmin hi, dictGet_map_pair]

theorem zcat_mem_finalCols (zc : ZScoreCalculator) (rs : List Record)
    (hs : SaneSetup zc rs) {cat : Field} (hcat : cat ∈ zc.categories)
    (hmem : cat ∈ mkCols rs) :
    ("zscore_" ++ cat) ∈ (finalFrame zc rs).cols := by
  rw [finalFrame_cols zc rs hs, (frameAfterCats_spec zc rs hs).1]
  rw [List.mem_append, List.mem_append]
  exact Or.inl (Or.inr ((mem_zcols_iff zc rs cat).mpr ⟨hcat, hmem⟩))

theorem input_mem_finalCols (zc : ZScoreCalculator) (rs : List Record)
    (hs : SaneSetup zc rs) {c : Field} (hmem : c ∈ mkCols rs) :
    c ∈ (finalFrame zc rs).cols := by
  rw [finalFrame_cols zc rs hs, (frameAfterCats_spec zc rs hs).1]
  rw [List.mem_append, List.mem_append]
  exact Or.inl (Or.inl hmem)

theorem ztotal_mem_finalCols (zc : ZScoreCalculator) (rs : List Record)
    (hs : SaneSetup zc rs) :
    "zscore_total" ∈ (finalFrame zc rs).cols := by
  rw [finalFrame_cols zc rs hs, List.mem_append]
  exact Or.inr (List.mem_singleton.mpr rfl)

/-! ### The standard per-category series agrees with C1's formula -/

theorem stdspec_aux (values top : List ℝ) {i : ℕ} (hvl : i < values.length) :
    (if (if 1 < top.length then lstd top else lstd values) = 0
      then values.map (fun _ => (0 : ℝ))
      else values.map (fun v =>
        (v - (if 1 < top.length then lmean top else lmean values))
          / (if 1 < top.length then lstd top else lstd values))).getD i 0
    = (if (if top.length < 2 then (lmean values, lstd values)
            else (lmean top, lstd top)).2 = 0 then 0
      else (values.getD i 0
          - (if top.length < 2 then (lmean values, lstd values)
              else (lmean top, lstd top)).1)
        / (if top.length < 2 then (lmean values, lstd values)
            else (lmean top, lstd top)).2) := by
  rw [apply_ite Prod.snd, apply_ite Prod.fst]
  have hswap : ∀ X Y : ℝ, (if top.length < 2 then X else Y)
      = (if 1 < top.length then Y else X) := by
    intro X Y
    by_cases h1 : 1 < top.length
    · rw [if_pos h1, if_neg (by omega)]
    · rw [if_neg h1, if_pos (by omega)]
  rw [hswap, hswap]
  by_cases hS : (if 1 < top.length then lstd top else lstd values) = 0
  · rw [if_pos hS, if_pos hS, getD_map_of_lt _ values i hvl 0 0]
  · rw [if_neg hS, if_neg hS, getD_map_of_lt _ values i hvl 0 0]

theorem standardZ_getD (neg : Bool) (column : List (Option ℝ)) {i : ℕ}
    (h : i < column.length) :
    (standardZ neg column).getD i 0 = specStandardZ neg column i := by
  have hvl : i < (fillna column).length := by
    rw [fillna_length]
    exact h
  cases neg with
  | false =>
    dsimp only [standardZ, specStandardZ, refMeanStd]
    simp only [Bool.false_eq_true, if_false]
    exact stdspec_aux _ _ hvl
  | true =>
    dsimp only [standardZ, specStandardZ, refMeanStd]
    simp only [if_true]
    exact stdspec_aux _ _ hvl

/-! ### The impact-weighted series agrees with C2's formula -/

theorem impactZ_getD (df : DataFrame) {category ac : Field}
    (hcase : (category = "field_goal_percentage" ∧ ac = "field_goals_attempted")
      ∨ (category = "free_throw_percentage" ∧ ac = "free_throws_attempted"))
    (hac : ac ∈ df.cols) {i : ℕ} (hi : i < df.nrows) :
    (impactZ df category).getD i 0
      = specImpactZ df.nrows (df.val category) (df.val ac) i := by
  rcases hcase with ⟨rfl, rfl⟩ | ⟨rfl, rfl⟩
  · dsimp only [impactZ, specImpactZ]
    rw [if_pos rfl]
    dsimp only
    rw [if_neg (not_not_intro hac)]
    have hfil : (List.range df.nrows).filter
          (fun j => cellPos (df.val "field_goals_attempted" j)
            && cellPos (df.val "field_goal_percentage" j))
        = (List.range df.nrows).filter
          (fun j => cellPos (df.val "field_goal_percentage" j)
            && cellPos (df.val "field_goals_attempted" j)) :=
      List.filter_congr (fun x _ => by rw [Bool.and_comm])
    rw [hfil]
    by_cases h0 : ((List.range df.nrows).filter
        (fun j => cellPos (df.val "field_goal_percentage" j)
          && cellPos (df.val "field_goals_attempted" j))).length = 0
    · rw [if_pos h0, if_pos h0, getD_replicate_eq]
    · rw [if_neg h0, if_neg h0]
      by_cases hstd : lstd (((List.range df.nrows).filter
            (fun j => cellPos (df.val "field_goal_percentage" j)
              && cellPos (df.val "field_goals_attempted" j))).map
          (fun j => ((df.val "field_goal_percentage" j).getD 0
              - lmean (((List.range df.nrows).filter
                  (fun j => cellPos (df.val "field_goal_percentage" j)
                    && cellPos (df.val "field_goals_attempted" j))).map
                (fun j => (df.val "field_goal_percentage" j).getD 0)))
            * (df.val "field_goals_attempted" j).getD 0)) = 0
      · rw [if_pos hstd, if_pos hstd, getD_replicate_eq]
      · rw [if_neg hstd, if_neg hstd,
          getD_map_of_lt _ _ i (by rw [List.length_range]; exact hi) 0 0,
          getD_range_of_lt hi]
        have hmem : (i ∈ (List.range df.nrows).filter
            (fun j => cellPos (df.val "field_goal_percentage" j)
              && cellPos (df.val "field_goals_attempted" j)))
            ↔ (cellPos (df.val "field_goal_percentage" i)
              && cellPos (df.val "field_goals_attempted" i)) = true := by
          rw [List.mem_filter, List.mem_range]
          simp [hi]
        by_cases hv : (cellPos (df.val "field_goal_percentage" i)
            && cellPos (df.val "field_goals_attempted" i)) = true
        · rw [if_pos (hmem.mpr hv), if_pos hv]
        · rw [if_neg (fun hc => hv (hmem.mp hc)), if_neg hv]
  · dsimp only [impactZ, specImpactZ]
    rw [if_neg (by decide : ¬ ("free_throw_percentage" : Field) = "field_goal_percentage")]
    rw [if_pos rfl]
    dsimp only
    rw [if_neg (not_not_intro hac)]
    have hfil : (List.range df.nrows).filter
          (fun j => cellPos (df.val "free_throws_attempted" j)
            && cellPos (df.val "free_throw_percentage" j))
        = (List.range df.nrows).filter
          (fun j => cellPos (df.val "free_throw_percentage" j)
            && cellPos (df.val "free_throws_attempted" j)) :=
      List.filter_congr (fun x _ => by rw [Bool.and_comm])
    rw [hfil]
    by_cases h0 : ((List.range df.nrows).filter
        (fun j => cellPos (df.val "free_throw_percentage" j)
          && cellPos (df.val "free_throws_attempted" j))).length = 0
    · rw [if_pos h0, if_pos h0, getD_replicate_eq]
    · rw [if_neg h0, if_neg h0]
      by_cases hstd : lstd (((List.range df.nrows).filter
            (fun j => cellPos (df.val "free_throw_percentage" j)
              && cellPos (df.val "free_throws_attempted" j))).map
          (fun j => ((df.val "free_throw_percentage" j).getD 0
              - lmean (((List.range df.nrows).filter
                  (fun j => cellPos (df.val "free_throw_percentage" j)
                    && cellPos (df.val "free_throws_attempted" j))).map
                (fun j => (df.val "free_throw_percentage" j).getD 0)))
            * (df.val "free_throws_attempted" j).getD 0)) = 0
      · rw [if_pos hstd, if_pos hstd, getD_replicate_eq]
      · rw [if_neg hstd, if_neg hstd,
          getD_map_of_lt _ _ i (by rw [List.length_range]; exact hi) 0 0,
          getD_range_of_lt hi]
        have hmem : (i ∈ (List.range df.nrows).filter
            (fun j => cellPos (df.val "free_throw_percentage" j)
              && cellPos (df.val "free_throws_attempted" j)))
            ↔ (cellPos (df.val "free_throw_percentage" i)
              && cellPos (df.val "free_throws_attempted" i)) = true := by
          rw [List.mem_filter, List.mem_range]
          simp [hi]
        by_cases hv : (cellPos (df.val "free_throw_percentage" i)
            && cellPos (df.val "free_throws_attempted" i)) = true
        · rw [if_pos (hmem.mpr hv), if_pos hv]
        · rw [if_neg (fun hc => hv (hmem.mp hc)), if_neg hv]

/-! ### The composite fold -/

theorem sum_elems_zero_of_nonneg {l : List ℝ} (h : ∀ x ∈ l, 0 ≤ x)
    (hs : l.sum = 0) : ∀ x ∈ l, x = 0 := by
  induction l with
  | nil => simp
  | cons a t ih =>
    have hta : 0 ≤ a := h a (by simp)
    have htt : 0 ≤ t.sum := List.sum_nonneg (fun x hx => h x (by simp [hx]))
    rw [List.sum_cons] at hs
    have ha : a = 0 := by linarith
    have ht : t.sum = 0 := by linarith
    intro x hx
    rcases List.mem_cons.mp hx with rfl | hxt
    · exact ha
    · exact ih (fun y hy => h y (by simp [hy])) ht x hxt

theorem composite_fold (zc : ZScoreCalculator) (df : DataFrame) :
    ∀ (cats : List Field) (acc : List ℝ × ℝ),
      ((cats.foldl (fun acc category =>
          if ("zscore_" ++ category) ∈ df.cols ∧ (wlookup zc.weights category).isSome then
            (((List.range df.nrows).map (fun i =>
                acc.1.getD i 0 + ((df.val ("zscore_" ++ category) i).getD 0)
                  * |(wlookup zc.weights category).getD 0|)),
             acc.2 + |(wlookup zc.weights category).getD 0|)
          else acc) acc).2
        = acc.2 + ((cats.filter (fun c => decide (("zscore_" ++ c) ∈ df.cols
            ∧ (wlookup zc.weights c).isSome))).map
          (fun c => |(wlookup zc.weights c).getD 0|)).sum)
      ∧ (acc.1.length = df.nrows →
          ((cats.foldl (fun acc category =>
              if ("zscore_" ++ category) ∈ df.cols ∧ (wlookup zc.weights category).isSome then
                (((List.range df.nrows).map (fun i =>
                    acc.1.getD i 0 + ((df.val ("zscore_" ++ category) i).getD 0)
                      * |(wlookup zc.weights category).getD 0|)),
                 acc.2 + |(wlookup zc.weights category).getD 0|)
              else acc) acc).1.length = df.nrows)
          ∧ ∀ i : ℕ, i < df.nrows →
            ((cats.foldl (fun acc category =>
                if ("zscore_" ++ category) ∈ df.cols ∧ (wlookup zc.weights category).isSome then
                  (((List.range df.nrows).map (fun i =>
                      acc.1.getD i 0 + ((df.val ("zscore_" ++ category) i).getD 0)
                        * |(wlookup zc.weights category).getD 0|)),
                   acc.2 + |(wlookup zc.weights category).getD 0|)
                else acc) acc).1.getD i 0
              = acc.1.getD i 0 + ((cats.filter (fun c => decide (("zscore_" ++ c) ∈ df.cols
                  ∧ (wlookup zc.weights c).isSome))).map
                (fun c => ((df.val ("zscore_" ++ c) i).getD 0)
                  * |(wlookup zc.weights c).getD 0|)).sum)) := by
  intro cats
  induction cats with
  | nil =>
    intro acc
    exact ⟨by simp, fun hlen => ⟨hlen, fun i _ => by simp⟩⟩
  | cons cat cs ih =>
    intro acc
    rw [List.foldl_cons]
    by_cases hp : ("zscore_" ++ cat) ∈ df.cols ∧ (wlookup zc.weights cat).isSome
    · rw [if_pos hp]
      obtain ⟨ih2, ih1⟩ := ih
        (((List.range df.nrows).map (fun i =>
            acc.1.getD i 0 + ((df.val ("zscore_" ++ cat) i).getD 0)
              * |(wlookup zc.weights cat).getD 0|)),
         acc.2 + |(wlookup zc.weights cat).getD 0|)
      have hfil : (cat :: cs).filter (fun c => decide (("zscore_" ++ c) ∈ df.cols
          ∧ (wlookup zc.weights c).isSome))
          = cat :: cs.filter (fun c => decide (("zscore_" ++ c) ∈ df.cols
            ∧ (wlookup zc.weights c).isSome)) := by
        rw [List.filter_cons, if_pos (decide_eq_true hp)]
      refine ⟨?_, fun hlen => ?_⟩
      · rw [ih2, hfil, List.map_cons, List.sum_cons]
        ring
      · have hlen' : ((List.range df.nrows).map (fun i =>
            acc.1.getD i 0 + ((df.val ("zscore_" ++ cat) i).getD 0)
              * |(wlookup zc.weights cat).getD 0|)).length = df.nrows := by
          rw [List.length_map, List.length_range]
        obtain ⟨jh1, jh2⟩ := ih1 hlen'
        refine ⟨jh1, fun i hi => ?_⟩
        rw [jh2 i hi, hfil, List.map_cons, List.sum_cons,
          getD_map_of_lt _ _ i (by rw [List.length_range]; exact hi) 0 0,
          getD_range_of_lt hi]
        ring
    · rw [if_neg hp]
      obtain ⟨ih2, ih1⟩ := ih acc
      have hfil : (cat :: cs).filter (fun c => decide (("zscore_" ++ c) ∈ df.cols
          ∧ (wlookup zc.weights c).isSome))
          = cs.filter (fun c => decide (("zscore_" ++ c) ∈ df.cols
            ∧ (wlookup zc.weights c).isSome)) := by
        rw [List.filter_cons, if_neg (by simpa using hp)]
      refine ⟨by rw [ih2, hfil], fun hlen => ?_⟩
      obtain ⟨jh1, jh2⟩ := ih1 hlen
      exact ⟨jh1, fun i hi => by rw [jh2 i hi, hfil]⟩

/-- `_calculate_composite_zscore`, entrywise: weighted sum over the
qualified categories, divided by the total weight when it is
positive. -/
theorem compositeZ_getD (zc : ZScoreCalculator) (df : DataFrame) {i : ℕ}
    (hi : i < df.nrows) :
    (compositeZ zc df).getD i 0
      = (if 0 < ((zc.categories.filter (fun c => decide (("zscore_" ++ c) ∈ df.cols
            ∧ (wlookup zc.weights c).isSome))).map
          (fun c => |(wlookup zc.weights c).getD 0|)).sum
        then ((zc.categories.filter (fun c => decide (("zscore_" ++ c) ∈ df.cols
              ∧ (wlookup zc.weights c).isSome))).map
            (fun c => ((df.val ("zscore_" ++ c) i).getD 0)
              * |(wlookup zc.weights c).getD 0|)).sum
          / ((zc.categories.filter (fun c => decide (("zscore_" ++ c) ∈ df.cols
              ∧ (wlookup zc.weights c).isSome))).map
            (fun c => |(wlookup zc.weights c).getD 0|)).sum
        else ((zc.categories.filter (fun c => decide (("zscore_" ++ c) ∈ df.cols
              ∧ (wlookup zc.weights c).isSome))).map
            (fun c => ((df.val ("zscore_" ++ c) i).getD 0)
              * |(wlookup zc.weights c).getD 0|)).sum) := by
  obtain ⟨h2, h1⟩ := composite_fold zc df zc.categories (List.replicate df.nrows 0, 0)
  obtain ⟨hlen, hval⟩ := h1 (by rw [List.length_replicate])
  dsimp only [compositeZ]
  rw [h2, zero_add] at *
  have hacc : ((List.replicate df.nrows (0:ℝ), (0:ℝ)).1).getD i 0 = 0 := getD_replicate_eq 0 _ _
  split
  · rw [getD_map_of_lt _ _ i (by rw [hlen]; exact hi) 0 0, hval i hi, hacc, zero_add]
  · rw [hval i hi, hacc, zero_add]

/-! ### C1: the standard per-category z-score -/

/-- **C1.** On a sane batch of at least `min_sample_size` records, for
every configured non-rate category present in the batch,
`calculate_zscores` gives each record the z-score
`(value − reference_mean) / reference_std` of C1's reference-population
rule (`specStandardZ`), with missing/null values read as 0, the
documented fallback and zero-std guard, and — for turnovers only — the
final sign flip on top of that value. -/
theorem C1_standard_zscore (zc : ZScoreCalculator) (rs : List Record)
    (hs : SaneSetup zc rs) {cat : Field} (hcat : cat ∈ zc.categories)
    (hrate : cat ≠ "field_goal_percentage" ∧ cat ≠ "free_throw_percentage")
    (hmem : cat ∈ mkCols rs) {i : ℕ} (hi : i < rs.length) :
    dictGet ((calculate_zscores zc rs).getD i []) ("zscore_" ++ cat)
      = some (some (specStandardZ (cat ∈ zc.negative_categories)
          ((mkDataFrame rs).col cat) i * (if cat = "turnovers" then -1 else 1))) := by
  rw [calculate_dictGet zc rs hs.1 hi,
    if_pos (zcat_mem_finalCols zc rs hs hcat hmem),
    finalFrame_val_zcat zc rs hs hcat hmem hi]
  have hz : zColumn zc.negative_categories (mkDataFrame rs) cat
      = standardZ (cat ∈ zc.negative_categories) ((mkDataFrame rs).col cat) := by
    rw [zColumn, if_neg]
    rintro (h | h)
    · exact hrate.1 h
    · exact hrate.2 h
  rw [hz, standardZ_getD _ _ (show i < ((mkDataFrame rs).col cat).length by
    rw [col_length]; exact hi)]

theorem C1_witness :
    SaneSetup (ZScoreCalculator.init ZSCORE_CONFIG) batch20
    ∧ "points" ∈ (ZScoreCalculator.init ZSCORE_CONFIG).categories
    ∧ ("points" : Field) ≠ "field_goal_percentage"
    ∧ ("points" : Field) ≠ "free_throw_percentage"
    ∧ "points" ∈ mkCols batch20
    ∧ (0 : ℕ) < batch20.length
    ∧ dictGet ((calculate_zscores (ZScoreCalculator.init ZSCORE_CONFIG) batch20).getD 0 [])
        ("zscore_" ++ "points")
      = some (some (specStandardZ
          (("points" : Field) ∈ (ZScoreCalculator.init ZSCORE_CONFIG).negative_categories)
          ((mkDataFrame batch20).col "points") 0
          * (if ("points" : Field) = "turnovers" then -1 else 1))) := by
  have hs : SaneSetup (ZScoreCalculator.init ZSCORE_CONFIG) batch20 :=
    ⟨by decide, by decide, by decide, by decide, by decide⟩
  refine ⟨hs, by decide, by decide, by decide, by decide, by decide, ?_⟩
  exact C1_standard_zscore _ _ hs (by decide) ⟨by decide, by decide⟩ (by decide) (by decide)

/-! ### C2: the impact-weighted rate-stat z-score -/

/-- **C2.** On a sane batch of at least `min_sample_size` records, for
a rate category present in the batch together with its paired attempts
field, `calculate_zscores` gives each record the impact-weighted
z-score of C2's rule (`specImpactZ`): valid records score
`(impact − mean_impact) / std_impact`, invalid records score 0, and
everyone scores 0 when there are no valid records or the impact
standard deviation is 0. -/
theorem C2_impact_weighted_zscore (zc : ZScoreCalculator) (rs : List Record)
    (hs : SaneSetup zc rs) {cat ac : Field}
    (hcase : (cat = "field_goal_percentage" ∧ ac = "field_goals_attempted")
      ∨ (cat = "free_throw_percentage" ∧ ac = "free_throws_attempted"))
    (hcat : cat ∈ zc.categories) (hmem : cat ∈ mkCols rs)
    (hacmem : ac ∈ mkCols rs) {i : ℕ} (hi : i < rs.length) :
    dictGet ((calculate_zscores zc rs).getD i []) ("zscore_" ++ cat)
      = some (some (specImpactZ rs.length
          ((mkDataFrame rs).val cat) ((mkDataFrame rs).val ac) i)) := by
  rw [calculate_dictGet zc rs hs.1 hi,
    if_pos (zcat_mem_finalCols zc rs hs hcat hmem),
    finalFrame_val_zcat zc rs hs hcat hmem hi]
  have htov : cat ≠ "turnovers" := by
    rcases hcase with ⟨rfl, -⟩ | ⟨rfl, -⟩ <;> decide
  rw [if_neg htov, mul_one]
  have hz : zColumn zc.negative_categories (mkDataFrame rs) cat
      = impactZ (mkDataFrame rs) cat := by
    rw [zColumn, if_pos]
    rcases hcase with ⟨rfl, -⟩ | ⟨rfl, -⟩
    · exact Or.inl rfl
    · exact Or.inr rfl
  rw [hz, impactZ_getD (mkDataFrame rs) hcase hacmem
    (show i < (mkDataFrame rs).nrows from hi)]
  rfl

theorem C2_witness :
    SaneSetup (ZScoreCalculator.init ZSCORE_CONFIG) batchFG
    ∧ "field_goal_percentage" ∈ (ZScoreCalculator.init ZSCORE_CONFIG).categories
    ∧ "field_goal_percentage" ∈ mkCols batchFG
    ∧ "field_goals_attempted" ∈ mkCols batchFG
    ∧ (0 : ℕ) < batchFG.length
    ∧ dictGet ((calculate_zscores (ZScoreCalculator.init ZSCORE_CONFIG) batchFG).getD 0 [])
        ("zscore_" ++ "field_goal_percentage")
      = some (some (specImpactZ batchFG.length
          ((mkDataFrame batchFG).val "field_goal_percentage")
          ((mkDataFrame batchFG).val "field_goals_attempted") 0)) := by
  have hs : SaneSetup (ZScoreCalculator.init ZSCORE_CONFIG) batchFG :=
    ⟨by decide, by decide, by decide, by decide, by decide⟩
  refine ⟨hs, by decide, by decide, by decide, by decide, ?_⟩
  exact C2_impact_weighted_zscore _ _ hs (Or.inl ⟨rfl, rfl⟩)
    (by decide) (by decide) (by decide) (by decide)

theorem compositeZ_length (zc : ZScoreCalculator) (df : DataFrame) :
    (compositeZ zc df).length = df.nrows := by
  obtain ⟨-, h1⟩ := composite_fold zc df zc.categories (List.replicate df.nrows 0, 0)
  obtain ⟨hlen, -⟩ := h1 (by rw [List.length_replicate])
  dsimp only [compositeZ]
  split
  · rw [List.length_map, hlen]
  · exact hlen

theorem mkDataFrame_val (rs : List Record) (c : Field) {i : ℕ}
    (hi : i < rs.length) :
    (mkDataFrame rs).val c i = (dictGet (rs.getD i []) c).join := by
  show (match rs[i]? with
    | some r => (dictGet r c).join
    | none => none) = (dictGet (rs.getD i []) c).join
  rw [List.getElem?_eq_getElem hi, List.getD_eq_getElem?_getD,
    List.getElem?_eq_getElem hi]
  rfl

theorem refMeanStd_snd_nonneg (neg : Bool) (values : List ℝ) :
    0 ≤ (refMeanStd neg values).2 := by
  cases neg with
  | false =>
    rw [refMeanStd]
    simp only [Bool.false_eq_true, if_false]
    rw [apply_ite Prod.snd]
    split <;> exact lstd_nonneg _
  | true =>
    rw [refMeanStd]
    simp only [if_true]
    rw [apply_ite Prod.snd]
    split <;> exact lstd_nonneg _

theorem specStandardZ_mono (neg : Bool) (column : List (Option ℝ)) {i j : ℕ}
    (hi : i < column.length) (hj : j < column.length)
    (hv : (column.getD i none).getD 0 ≤ (column.getD j none).getD 0) :
    specStandardZ neg column i ≤ specStandardZ neg column j := by
  have hvi := fillna_getD column hi
  have hvj := fillna_getD column hj
  rw [specStandardZ, specStandardZ]
  by_cases hS : (refMeanStd neg (fillna column)).2 = 0
  · rw [if_pos hS, if_pos hS]
  · rw [if_neg hS, if_neg hS]
    have hpos : 0 < (refMeanStd neg (fillna column)).2 :=
      lt_of_le_of_ne (refMeanStd_snd_nonneg neg (fillna column)) (Ne.symm hS)
    apply (div_le_div_iff_of_pos_right hpos).mpr
    apply sub_le_sub_right
    rw [hvi, hvj]
    exact hv

/-! ### C3: the composite z-score -/

/-- **C3.** On a sane batch of at least `min_sample_size` records,
every record's `zscore_total` is
`Σ (zscore_c · |weight_c|) / Σ |weight_c|`, the sums ranging over
exactly the configured categories that both carry a `zscore_c` field in
this batch and have an entry in the weights mapping; when that total
weight is 0 the composite is 0. -/
theorem C3_composite_zscore (zc : ZScoreCalculator) (rs : List Record)
    (hs : SaneSetup zc rs) {i : ℕ} (hi : i < rs.length) :
    dictGet ((calculate_zscores zc rs).getD i []) "zscore_total"
      = some (some (
        if ((zc.categories.filter (fun c =>
              decide (("zscore_" ++ c) ∈ dictKeys ((calculate_zscores zc rs).getD i [])
                ∧ (wlookup zc.weights c).isSome))).map
            (fun c => |(wlookup zc.weights c).getD 0|)).sum = 0
        then 0
        else ((zc.categories.filter (fun c =>
              decide (("zscore_" ++ c) ∈ dictKeys ((calculate_zscores zc rs).getD i [])
                ∧ (wlookup zc.weights c).isSome))).map
            (fun c => ((dictGet ((calculate_zscores zc rs).getD i []) ("zscore_" ++ c)).getD none).getD 0
              * |(wlookup zc.weights c).getD 0|)).sum
          / ((zc.categories.filter (fun c =>
              decide (("zscore_" ++ c) ∈ dictKeys ((calculate_zscores zc rs).getD i [])
                ∧ (wlookup zc.weights c).isSome))).map
            (fun c => |(wlookup zc.weights c).getD 0|)).sum)) := by
  have hflipn : i < (frameAfterFlip zc rs).nrows := by
    rw [frameAfterFlip_nrows]
    exact hi
  have hKeys : dictKeys ((calculate_zscores zc rs).getD i [])
      = (frameAfterFlip zc rs).cols ++ ["zscore_total"] := by
    rw [calculate_dictKeys zc rs hs.1 hi, finalFrame_cols zc rs hs,
      frameAfterFlip_cols]
  have hfilters : zc.categories.filter (fun c =>
        decide (("zscore_" ++ c) ∈ dictKeys ((calculate_zscores zc rs).getD i [])
          ∧ (wlookup zc.weights c).isSome))
      = zc.categories.filter (fun c =>
        decide (("zscore_" ++ c) ∈ (frameAfterFlip zc rs).cols
          ∧ (wlookup zc.weights c).isSome)) := by
    apply List.filter_congr
    intro c hc
    have hne := zcat_ne_ztotal hc hs.2.2.2.2
    rw [decide_eq_decide, hKeys, List.mem_append, List.mem_singleton]
    constructor
    · rintro ⟨hm | hm, hw⟩
      · exact ⟨hm, hw⟩
      · exact absurd hm hne
    · rintro ⟨hm, hw⟩
      exact ⟨Or.inl hm, hw⟩
  have hvals : ∀ c ∈ zc.categories.filter (fun c =>
        decide (("zscore_" ++ c) ∈ (frameAfterFlip zc rs).cols
          ∧ (wlookup zc.weights c).isSome)),
      ((dictGet ((calculate_zscores zc rs).getD i []) ("zscore_" ++ c)).getD none).getD 0
          * |(wlookup zc.weights c).getD 0|
        = ((frameAfterFlip zc rs).val ("zscore_" ++ c) i).getD 0
          * |(wlookup zc.weights c).getD 0| := by
    intro c hc
    obtain ⟨hccat, hcmem⟩ := List.mem_filter.mp hc
    obtain ⟨hm, -⟩ := of_decide_eq_true hcmem
    have hne := zcat_ne_ztotal hccat hs.2.2.2.2
    have hmemfin : ("zscore_" ++ c) ∈ (finalFrame zc rs).cols := by
      rw [finalFrame_cols zc rs hs, List.mem_append, ← frameAfterFlip_cols]
      exact Or.inl hm
    rw [calculate_dictGet zc rs hs.1 hi, if_pos hmemfin,
      finalFrame_val_ne_total zc rs hne]
    rfl
  rw [calculate_dictGet zc rs hs.1 hi, if_pos (ztotal_mem_finalCols zc rs hs),
    finalFrame_val_total zc rs i,
    getD_map_of_lt some _ i (by rw [compositeZ_length, frameAfterFlip_nrows]; exact hi) none 0,
    compositeZ_getD zc (frameAfterFlip zc rs) hflipn]
  rw [hfilters, congrArg List.sum (List.map_congr_left hvals)]
  have hWnn : 0 ≤ ((zc.categories.filter (fun c =>
        decide (("zscore_" ++ c) ∈ (frameAfterFlip zc rs).cols
          ∧ (wlookup zc.weights c).isSome))).map
      (fun c => |(wlookup zc.weights c).getD 0|)).sum := by
    apply List.sum_nonneg
    intro x hx
    obtain ⟨c, -, rfl⟩ := List.mem_map.mp hx
    exact abs_nonneg _
  by_cases hW : ((zc.categories.filter (fun c =>
        decide (("zscore_" ++ c) ∈ (frameAfterFlip zc rs).cols
          ∧ (wlookup zc.weights c).isSome))).map
      (fun c => |(wlookup zc.weights c).getD 0|)).sum = 0
  · rw [if_pos hW, if_neg (by rw [hW]; exact lt_irrefl 0)]
    have hzero := sum_elems_zero_of_nonneg
      (by
        intro x hx
        obtain ⟨c, -, rfl⟩ := List.mem_map.mp hx
        exact abs_nonneg _) hW
    have : ((zc.categories.filter (fun c =>
          decide (("zscore_" ++ c) ∈ (frameAfterFlip zc rs).cols
            ∧ (wlookup zc.weights c).isSome))).map
        (fun c => ((frameAfterFlip zc rs).val ("zscore_" ++ c) i).getD 0
          * |(wlookup zc.weights c).getD 0|)).sum = 0 := by
      apply List.sum_eq_zero
      intro x hx
      obtain ⟨c, hcmem, rfl⟩ := List.mem_map.mp hx
      have habs : |(wlookup zc.weights c).getD 0| = 0 :=
        hzero _ (List.mem_map.mpr ⟨c, hcmem, rfl⟩)
      rw [habs, mul_zero]
    rw [this]
  · rw [if_neg hW, if_pos (lt_of_le_of_ne hWnn (Ne.symm hW))]

theorem C3_witness :
    SaneSetup (ZScoreCalculator.init ZSCORE_CONFIG) batch20
    ∧ (0 : ℕ) < batch20.length
    ∧ dictGet ((calculate_zscores (ZScoreCalculator.init ZSCORE_CONFIG) batch20).getD 0 [])
        "zscore_total"
      = some (some (
        if (((ZScoreCalculator.init ZSCORE_CONFIG).categories.filter (fun c =>
              decide (("zscore_" ++ c) ∈ dictKeys ((calculate_zscores (ZScoreCalculator.init ZSCORE_CONFIG) batch20).getD 0 [])
                ∧ (wlookup (ZScoreCalculator.init ZSCORE_CONFIG).weights c).isSome))).map
            (fun c => |(wlookup (ZScoreCalculator.init ZSCORE_CONFIG).weights c).getD 0|)).sum = 0
        then 0
        else (((ZScoreCalculator.init ZSCORE_CONFIG).categories.filter (fun c =>
              decide (("zscore_" ++ c) ∈ dictKeys ((calculate_zscores (ZScoreCalculator.init ZSCORE_CONFIG) batch20).getD 0 [])
                ∧ (wlookup (ZScoreCalculator.init ZSCORE_CONFIG).weights c).isSome))).map
            (fun c => ((dictGet ((calculate_zscores (ZScoreCalculator.init ZSCORE_CONFIG) batch20).getD 0 []) ("zscore_" ++ c)).getD none).getD 0
              * |(wlookup (ZScoreCalculator.init ZSCORE_CONFIG).weights c).getD 0|)).sum
          / (((ZScoreCalculator.init ZSCORE_CONFIG).categories.filter (fun c =>
              decide (("zscore_" ++ c) ∈ dictKeys ((calculate_zscores (ZScoreCalculator.init ZSCORE_CONFIG) batch20).getD 0 [])
                ∧ (wlookup (ZScoreCalculator.init ZSCORE_CONFIG).weights c).isSome))).map
            (fun c => |(wlookup (ZScoreCalculator.init ZSCORE_CONFIG).weights c).getD 0|)).sum)) := by
  have hs : SaneSetup (ZScoreCalculator.init ZSCORE_CONFIG) batch20 :=
    ⟨by decide, by decide, by decide, by decide, by decide⟩
  exact ⟨hs, by decide, C3_composite_zscore _ _ hs (by decide)⟩

/-! ### C4: the turnover inversion property -/

/-- **C4.** On a sane batch that scores turnovers, for two records that
agree outside `turnovers` and where record `i` has strictly fewer
turnovers than record `j`, after the full pipeline (negative-direction
reference scoring followed by the sign flip) record `i`'s
`zscore_turnovers` is at least record `j`'s. -/
theorem C4_turnover_inversion (zc : ZScoreCalculator) (rs : List Record)
    (hs : SaneSetup zc rs) (hcat : "turnovers" ∈ zc.categories)
    (hneg : "turnovers" ∈ zc.negative_categories)
    (hmem : "turnovers" ∈ mkCols rs)
    {i j : ℕ} (hi : i < rs.length) (hj : j < rs.length)
    (hsame : stripField "turnovers" (rs.getD i [])
      = stripField "turnovers" (rs.getD j []))
    {a b : ℝ}
    (hA : dictGet (rs.getD i []) "turnovers" = some (some a))
    (hB : dictGet (rs.getD j []) "turnovers" = some (some b))
    (hab : a < b) :
    ((dictGet ((calculate_zscores zc rs).getD j []) "zscore_turnovers").getD none).getD 0
      ≤ ((dictGet ((calculate_zscores zc rs).getD i []) "zscore_turnovers").getD none).getD 0 := by
  have hzget : ∀ k : ℕ, k < rs.length →
      dictGet ((calculate_zscores zc rs).getD k []) "zscore_turnovers"
        = some (some (specStandardZ ("turnovers" ∈ zc.negative_categories)
            ((mkDataFrame rs).col "turnovers") k * (-1))) := by
    intro k hk
    rw [← zscore_turnovers_name, calculate_dictGet zc rs hs.1 hk,
      if_pos (zcat_mem_finalCols zc rs hs hcat hmem),
      finalFrame_val_zcat zc rs hs hcat hmem hk]
    have hzcol : zColumn zc.negative_categories (mkDataFrame rs) "turnovers"
        = standardZ ("turnovers" ∈ zc.negative_categories)
          ((mkDataFrame rs).col "turnovers") := by
      rw [zColumn, if_neg (by decide)]
    rw [hzcol, standardZ_getD _ _ (show k < ((mkDataFrame rs).col "turnovers").length by
      rw [col_length]; exact hk), if_pos rfl]
  rw [hzget i hi, hzget j hj]
  simp only [Option.getD_some]
  have hvi : ((((mkDataFrame rs).col "turnovers").getD i none).getD 0) = a := by
    rw [col_getD _ _ (show i < (mkDataFrame rs).nrows from hi),
      mkDataFrame_val rs _ hi, hA]
    rfl
  have hvj : ((((mkDataFrame rs).col "turnovers").getD j none).getD 0) = b := by
    rw [col_getD _ _ (show j < (mkDataFrame rs).nrows from hj),
      mkDataFrame_val rs _ hj, hB]
    rfl
  have hmono := specStandardZ_mono ("turnovers" ∈ zc.negative_categories)
    ((mkDataFrame rs).col "turnovers")
    (show i < ((mkDataFrame rs).col "turnovers").length by rw [col_length]; exact hi)
    (show j < ((mkDataFrame rs).col "turnovers").length by rw [col_length]; exact hj)
    (by rw [hvi, hvj]; exact le_of_lt hab)
  simp only [mul_neg_one]
  exact neg_le_neg hmono

theorem C4_witness :
    SaneSetup (ZScoreCalculator.init ZSCORE_CONFIG) batchTov
    ∧ "turnovers" ∈ (ZScoreCalculator.init ZSCORE_CONFIG).categories
    ∧ "turnovers" ∈ (ZScoreCalculator.init ZSCORE_CONFIG).negative_categories
    ∧ "turnovers" ∈ mkCols batchTov
    ∧ (0 : ℕ) < batchTov.length ∧ (1 : ℕ) < batchTov.length
    ∧ stripField "turnovers" (batchTov.getD 0 [])
        = stripField "turnovers" (batchTov.getD 1 [])
    ∧ dictGet (batchTov.getD 0 []) "turnovers" = some (some 0)
    ∧ dictGet (batchTov.getD 1 []) "turnovers" = some (some 1)
    ∧ (0 : ℝ) < 1
    ∧ ((dictGet ((calculate_zscores (ZScoreCalculator.init ZSCORE_CONFIG) batchTov).getD 1 [])
          "zscore_turnovers").getD none).getD 0
      ≤ ((dictGet ((calculate_zscores (ZScoreCalculator.init ZSCORE_CONFIG) batchTov).getD 0 [])
          "zscore_turnovers").getD none).getD 0 := by
  have hs : SaneSetup (ZScoreCalculator.init ZSCORE_CONFIG) batchTov :=
    ⟨by decide, by decide, by decide, by decide, by decide⟩
  refine ⟨hs, by decide, by decide, by decide, by decide, by decide, rfl, rfl, rfl,
    by norm_num, ?_⟩
  exact C4_turnover_inversion _ _ hs (by decide) (by decide) (by decide)
    (by decide) (by decide) rfl rfl rfl (by norm_num)

/-! ### C6: the output field set -/

/-- **C6, counterexample.** The claim promises every returned record
exactly its own input fields plus one z-column per configured category.
On a 20-record batch whose second record has only `points`, the
returned second record gains an `assists` field (null) from the first
record — the DataFrame union of fields — and no `zscore_blocks` field
exists although `blocks` is a configured category (it is simply absent
from the batch, so the loop skips it). -/
theorem C6_counterexample :
    batchMixed.length = 20
    ∧ "blocks" ∈ (ZScoreCalculator.init ZSCORE_CONFIG).categories
    ∧ dictGet (batchMixed.getD 1 []) "assists" = none
    ∧ dictGet ((calculate_zscores (ZScoreCalculator.init ZSCORE_CONFIG) batchMixed).getD 1 [])
        "assists" = some none
    ∧ dictGet ((calculate_zscores (ZScoreCalculator.init ZSCORE_CONFIG) batchMixed).getD 1 [])
        "zscore_blocks" = none := by
  have hs : SaneSetup (ZScoreCalculator.init ZSCORE_CONFIG) batchMixed :=
    ⟨by decide, by decide, by decide, by decide, by decide⟩
  have h1 : (1 : ℕ) < batchMixed.length := by decide
  refine ⟨by decide, by decide, rfl, ?_, ?_⟩
  · rw [calculate_dictGet _ _ hs.1 h1,
      if_pos (input_mem_finalCols _ _ hs (by decide)),
      finalFrame_val_input _ _ hs (by decide),
      mkDataFrame_val _ _ h1]
    rfl
  · rw [calculate_dictGet _ _ hs.1 h1, if_neg]
    rw [finalFrame_cols _ _ hs, (frameAfterCats_spec _ _ hs).1]
    decide

/-- **C6, amended.** On a sane batch of at least `min_sample_size`
records, every returned record carries the union of all the batch's
input fields (with its own value, null where its dict lacked the field
or held null), plus one `zscore_<category>` field for each configured
category that appears among the batch's fields, plus `zscore_total`;
every added z-field holds a (non-null) real number. -/
theorem C6_output_fields (zc : ZScoreCalculator) (rs : List Record)
    (hs : SaneSetup zc rs) {i : ℕ} (hi : i < rs.length) :
    dictKeys ((calculate_zscores zc rs).getD i [])
      = (mkCols rs ++ (zc.categories.filter (fun c => decide (c ∈ mkCols rs))).map
          (fun c => "zscore_" ++ c)) ++ ["zscore_total"]
    ∧ (∀ c ∈ mkCols rs,
        dictGet ((calculate_zscores zc rs).getD i []) c
          = some ((dictGet (rs.getD i []) c).join))
    ∧ (∀ cat ∈ zc.categories, cat ∈ mkCols rs → ∃ x : ℝ,
        dictGet ((calculate_zscores zc rs).getD i []) ("zscore_" ++ cat)
          = some (some x))
    ∧ (∃ x : ℝ,
        dictGet ((calculate_zscores zc rs).getD i []) "zscore_total"
          = some (some x)) := by
  refine ⟨?_, ?_, ?_, ?_⟩
  · rw [calculate_dictKeys zc rs hs.1 hi, finalFrame_cols zc rs hs,
      (frameAfterCats_spec zc rs hs).1]
  · intro c hc
    have hclean := hs.2.2.1 c hc
    rw [calculate_dictGet zc rs hs.1 hi,
      if_pos (input_mem_finalCols zc rs hs hc),
      finalFrame_val_input zc rs hs hclean, mkDataFrame_val rs c hi]
  · intro cat hcat hmem
    refine ⟨(zColumn zc.negative_categories (mkDataFrame rs) cat).getD i 0
      * (if cat = "turnovers" then -1 else 1), ?_⟩
    rw [calculate_dictGet zc rs hs.1 hi,
      if_pos (zcat_mem_finalCols zc rs hs hcat hmem),
      finalFrame_val_zcat zc rs hs hcat hmem hi]
  · refine ⟨(compositeZ zc (frameAfterFlip zc rs)).getD i 0, ?_⟩
    rw [calculate_dictGet zc rs hs.1 hi, if_pos (ztotal_mem_finalCols zc rs hs),
      finalFrame_val_total zc rs i,
      getD_map_of_lt some _ i
        (by rw [compositeZ_length, frameAfterFlip_nrows]; exact hi) none 0]

theorem C6_witness :
    SaneSetup (ZScoreCalculator.init ZSCORE_CONFIG) batchMixed
    ∧ (1 : ℕ) < batchMixed.length
    ∧ (dictKeys ((calculate_zscores (ZScoreCalculator.init ZSCORE_CONFIG) batchMixed).getD 1 [])
        = (mkCols batchMixed
            ++ ((ZScoreCalculator.init ZSCORE_CONFIG).categories.filter
              (fun c => decide (c ∈ mkCols batchMixed))).map (fun c => "zscore_" ++ c))
          ++ ["zscore_total"]
    ∧ (∀ c ∈ mkCols batchMixed,
        dictGet ((calculate_zscores (ZScoreCalculator.init ZSCORE_CONFIG) batchMixed).getD 1 []) c
          = some ((dictGet (batchMixed.getD 1 []) c).join))
    ∧ (∀ cat ∈ (ZScoreCalculator.init ZSCORE_CONFIG).categories, cat ∈ mkCols batchMixed → ∃ x : ℝ,
        dictGet ((calculate_zscores (ZScoreCalculator.init ZSCORE_CONFIG) batchMixed).getD 1 [])
          ("zscore_" ++ cat) = some (some x))
    ∧ (∃ x : ℝ,
        dictGet ((calculate_zscores (ZScoreCalculator.init ZSCORE_CONFIG) batchMixed).getD 1 [])
          "zscore_total" = some (some x))) := by
  have hs : SaneSetup (ZScoreCalculator.init ZSCORE_CONFIG) batchMixed :=
    ⟨by decide, by decide, by decide, by decide, by decide⟩
  exact ⟨hs, by decide, C6_output_fields _ _ hs (by decide)⟩

/-! ### Positive variance from two distinct members -/

theorem sum_pos_of_mem {l : List ℝ} {x : ℝ} (hx : x ∈ l) (hxpos : 0 < x)
    (hnn : ∀ y ∈ l, 0 ≤ y) : 0 < l.sum := by
  induction l with
  | nil => simp at hx
  | cons a t ih =>
    rw [List.sum_cons]
    rcases List.mem_cons.mp hx with rfl | hxt
    · have ht : 0 ≤ t.sum :=
        List.sum_nonneg (fun y hy => hnn y (List.mem_cons_of_mem _ hy))
      linarith
    · have ha : 0 ≤ a := hnn a (List.mem_cons_self a t)
      have ht := ih hxt (fun y hy => hnn y (List.mem_cons_of_mem a hy))
      linarith

theorem two_le_length_of_mem {xs : List ℝ} {x y : ℝ} (hx : x ∈ xs)
    (hy : y ∈ xs) (hxy : x ≠ y) : 2 ≤ xs.length := by
  rcases xs with _ | ⟨a, t⟩
  · simp at hx
  · rcases t with _ | ⟨b, t'⟩
    · exact absurd ((List.mem_singleton.mp hx).trans
        (List.mem_singleton.mp hy).symm) hxy
    · simp only [List.length_cons]
      omega

theorem lvar_pos_of_two {xs : List ℝ} {x y : ℝ} (hx : x ∈ xs) (hy : y ∈ xs)
    (hxy : x ≠ y) : 0 < lvar xs := by
  have hlen : 2 ≤ xs.length := two_le_length_of_mem hx hy hxy
  rw [lvar]
  apply div_pos
  · have hne : x ≠ lmean xs ∨ y ≠ lmean xs := by
      by_contra h
      push_neg at h
      exact hxy (h.1.trans h.2.symm)
    have hnn : ∀ z ∈ xs.map (fun v => (v - lmean xs) ^ 2), 0 ≤ z := by
      intro z hz
      obtain ⟨v, -, rfl⟩ := List.mem_map.mp hz
      positivity
    rcases hne with h | h
    · exact sum_pos_of_mem (List.mem_map.mpr ⟨x, hx, rfl⟩)
        (pow_two_pos_of_ne_zero (sub_ne_zero.mpr h)) hnn
    · exact sum_pos_of_mem (List.mem_map.mpr ⟨y, hy, rfl⟩)
        (pow_two_pos_of_ne_zero (sub_ne_zero.mpr h)) hnn
  · have : (2 : ℝ) ≤ (xs.length : ℝ) := by exact_mod_cast hlen
    linarith

theorem lstd_pos_of_two {xs : List ℝ} {x y : ℝ} (hx : x ∈ xs) (hy : y ∈ xs)
    (hxy : x ≠ y) : 0 < lstd xs := by
  rw [lstd]
  exact Real.sqrt_pos.mpr (lvar_pos_of_two hx hy hxy)

/-! ### Ordering of the impact-weighted z-scores -/

theorem specImpactZ_ordering (n : ℕ) (pct att : ℕ → Option ℝ) {i j : ℕ}
    (hi : i < n) (hj : j < n) {p ai aj : ℝ}
    (hpi : pct i = some p) (hpj : pct j = some p)
    (hai : att i = some ai) (haj : att j = some aj)
    (hp : 0 < p) (hai0 : 0 < ai) (haj0 : 0 < aj) (haij : ai < aj) :
    (lmean (((List.range n).filter (fun k => cellPos (pct k) && cellPos (att k))).map
        (fun k => (pct k).getD 0)) < p
      → specImpactZ n pct att i < specImpactZ n pct att j)
    ∧ (p < lmean (((List.range n).filter (fun k => cellPos (pct k) && cellPos (att k))).map
        (fun k => (pct k).getD 0))
      → specImpactZ n pct att j < specImpactZ n pct att i) := by
  have hvi : (cellPos (pct i) && cellPos (att i)) = true := by
    rw [hpi, hai]
    show ((if 0 < p then true else false) && (if 0 < ai then true else false)) = true
    rw [if_pos hp, if_pos hai0]
    rfl
  have hvj : (cellPos (pct j) && cellPos (att j)) = true := by
    rw [hpj, haj]
    show ((if 0 < p then true else false) && (if 0 < aj then true else false)) = true
    rw [if_pos hp, if_pos haj0]
    rfl
  have hiV : i ∈ (List.range n).filter (fun k => cellPos (pct k) && cellPos (att k)) :=
    List.mem_filter.mpr ⟨List.mem_range.mpr hi, hvi⟩
  have hjV : j ∈ (List.range n).filter (fun k => cellPos (pct k) && cellPos (att k)) :=
    List.mem_filter.mpr ⟨List.mem_range.mpr hj, hvj⟩
  have hV0 : ¬ ((List.range n).filter (fun k => cellPos (pct k) && cellPos (att k))).length = 0 := by
    intro h
    rw [List.length_eq_zero] at h
    rw [h] at hiV
    simp at hiV
  dsimp only [specImpactZ]
  simp only [if_neg hV0, hvi, hvj, if_true]
  set m := lmean (List.map (fun k => (pct k).getD 0)
    (List.filter (fun k => cellPos (pct k) && cellPos (att k)) (List.range n))) with hmdef
  have hii : ((pct i).getD 0 - m) * (att i).getD 0 = (p - m) * ai := by
    rw [hpi, hai]
    rfl
  have hij : ((pct j).getD 0 - m) * (att j).getD 0 = (p - m) * aj := by
    rw [hpj, haj]
    rfl
  have hstd : p - m ≠ 0 →
      0 < lstd (List.map (fun k => ((pct k).getD 0 - m) * (att k).getD 0)
        (List.filter (fun k => cellPos (pct k) && cellPos (att k)) (List.range n))) := by
    intro pm
    have hne : ((pct i).getD 0 - m) * (att i).getD 0
        ≠ ((pct j).getD 0 - m) * (att j).getD 0 := by
      rw [hii, hij]
      intro h
      exact (ne_of_lt haij) (mul_left_cancel₀ pm h)
    exact lstd_pos_of_two
      (List.mem_map_of_mem (fun k => ((pct k).getD 0 - m) * (att k).getD 0) hiV)
      (List.mem_map_of_mem _ hjV) hne
  constructor
  · intro hlt
    have hd : 0 < p - m := sub_pos.mpr hlt
    have hstdpos := hstd (ne_of_gt hd)
    simp only [if_neg (ne_of_gt hstdpos)]
    apply (div_lt_div_iff_of_pos_right hstdpos).mpr
    apply sub_lt_sub_right
    rw [hii, hij]
    exact mul_lt_mul_of_pos_left haij hd
  · intro hlt
    have hd : p - m < 0 := sub_neg.mpr hlt
    have hstdpos := hstd (ne_of_lt hd)
    simp only [if_neg (ne_of_gt hstdpos)]
    apply (div_lt_div_iff_of_pos_right hstdpos).mpr
    apply sub_lt_sub_right
    rw [hii, hij]
    exact mul_lt_mul_of_neg_left haij hd

/-! ### C9: the impact-weighting ordering -/

theorem cellPos_some_pos {q : ℝ} (h : 0 < q) : cellPos (some q) = true := by
  show (if 0 < q then true else false) = true
  rw [if_pos h]

theorem cellPos_none : cellPos (none : Option ℝ) = false := rfl

theorem c9_sane : SaneSetup (ZScoreCalculator.init cfg9) c9Batch :=
  ⟨by decide, by decide, by decide, by decide, by decide⟩

theorem c9_filter :
    List.filter (fun k => cellPos ((mkDataFrame c9Batch).val "field_goal_percentage" k)
      && cellPos ((mkDataFrame c9Batch).val "field_goals_attempted" k)) (List.range 20)
    = [0, 1, 2, 3] := by
  have e0p : (mkDataFrame c9Batch).val "field_goal_percentage" 0 = some ((1 : ℝ) / 2) := rfl
  have e1p : (mkDataFrame c9Batch).val "field_goal_percentage" 1 = some ((1 : ℝ) / 2) := rfl
  have e2p : (mkDataFrame c9Batch).val "field_goal_percentage" 2 = some ((9 : ℝ) / 20) := rfl
  have e3p : (mkDataFrame c9Batch).val "field_goal_percentage" 3 = some ((1 : ℝ) / 5) := rfl
  have e4p : (mkDataFrame c9Batch).val "field_goal_percentage" 4 = some ((1 : ℝ) / 2) := rfl
  have e5p : (mkDataFrame c9Batch).val "field_goal_percentage" 5 = some ((1 : ℝ) / 2) := rfl
  have e6p : (mkDataFrame c9Batch).val "field_goal_percentage" 6 = some ((1 : ℝ) / 2) := rfl
  have e7p : (mkDataFrame c9Batch).val "field_goal_percentage" 7 = some ((1 : ℝ) / 2) := rfl
  have e8p : (mkDataFrame c9Batch).val "field_goal_percentage" 8 = some ((1 : ℝ) / 2) := rfl
  have e9p : (mkDataFrame c9Batch).val "field_goal_percentage" 9 = some ((1 : ℝ) / 2) := rfl
  have e10p : (mkDataFrame c9Batch).val "field_goal_percentage" 10 = some ((1 : ℝ) / 2) := rfl
  have e11p : (mkDataFrame c9Batch).val "field_goal_percentage" 11 = some ((1 : ℝ) / 2) := rfl
  have e12p : (mkDataFrame c9Batch).val "field_goal_percentage" 12 = some ((1 : ℝ) / 2) := rfl
  have e13p : (mkDataFrame c9Batch).val "field_goal_percentage" 13 = some ((1 : ℝ) / 2) := rfl
  have e14p : (mkDataFrame c9Batch).val "field_goal_percentage" 14 = some ((1 : ℝ) / 2) := rfl
  have e15p : (mkDataFrame c9Batch).val "field_goal_percentage" 15 = some ((1 : ℝ) / 2) := rfl
  have e16p : (mkDataFrame c9Batch).val "field_goal_percentage" 16 = some ((1 : ℝ) / 2) := rfl
  have e17p : (mkDataFrame c9Batch).val "field_goal_percentage" 17 = some ((1 : ℝ) / 2) := rfl
  have e18p : (mkDataFrame c9Batch).val "field_goal_percentage" 18 = some ((1 : ℝ) / 2) := rfl
  have e19p : (mkDataFrame c9Batch).val "field_goal_percentage" 19 = some ((1 : ℝ) / 2) := rfl
  have e0a : (mkDataFrame c9Batch).val "field_goals_attempted" 0 = some (1 : ℝ) := rfl
  have e1a : (mkDataFrame c9Batch).val "field_goals_attempted" 1 = some (2 : ℝ) := rfl
  have e2a : (mkDataFrame c9Batch).val "field_goals_attempted" 2 = some (200 : ℝ) := rfl
  have e3a : (mkDataFrame c9Batch).val "field_goals_attempted" 3 = some (1 : ℝ) := rfl
  have e4a : (mkDataFrame c9Batch).val "field_goals_attempted" 4 = none := rfl
  have e5a : (mkDataFrame c9Batch).val "field_goals_attempted" 5 = none := rfl
  have e6a : (mkDataFrame c9Batch).val "field_goals_attempted" 6 = none := rfl
  have e7a : (mkDataFrame c9Batch).val "field_goals_attempted" 7 = none := rfl
  have e8a : (mkDataFrame c9Batch).val "field_goals_attempted" 8 = none := rfl
  have e9a : (mkDataFrame c9Batch).val "field_goals_attempted" 9 = none := rfl
  have e10a : (mkDataFrame c9Batch).val "field_goals_attempted" 10 = none := rfl
  have e11a : (mkDataFrame c9Batch).val "field_goals_attempted" 11 = none := rfl
  have e12a : (mkDataFrame c9Batch).val "field_goals_attempted" 12 = none := rfl
  have e13a : (mkDataFrame c9Batch).val "field_goals_attempted" 13 = none := rfl
  have e14a : (mkDataFrame c9Batch).val "field_goals_attempted" 14 = none := rfl
  have e15a : (mkDataFrame c9Batch).val "field_goals_attempted" 15 = none := rfl
  have e16a : (mkDataFrame c9Batch).val "field_goals_attempted" 16 = none := rfl
  have e17a : (mkDataFrame c9Batch).val "field_goals_attempted" 17 = none := rfl
  have e18a : (mkDataFrame c9Batch).val "field_goals_attempted" 18 = none := rfl
  have e19a : (mkDataFrame c9Batch).val "field_goals_attempted" 19 = none := rfl
  have chalf : cellPos (some ((1 : ℝ) / 2)) = true := cellPos_some_pos (by norm_num)
  have c920 : cellPos (some ((9 : ℝ) / 20)) = true := cellPos_some_pos (by norm_num)
  have c15 : cellPos (some ((1 : ℝ) / 5)) = true := cellPos_some_pos (by norm_num)
  have cone : cellPos (some (1 : ℝ)) = true := cellPos_some_pos (by norm_num)
  have ctwo : cellPos (some (2 : ℝ)) = true := cellPos_some_pos (by norm_num)
  have c200 : cellPos (some (200 : ℝ)) = true := cellPos_some_pos (by norm_num)
  have hr : List.range 20 = [0, 1, 2, 3, 4, 5, 6, 7, 8, 9, 10, 11, 12, 13, 14, 15, 16, 17, 18, 19] := by
    decide
  rw [hr]
  simp only [List.filter, e0p, e1p, e2p, e3p, e4p, e5p, e6p, e7p, e8p, e9p, e10p, e11p, e12p, e13p, e14p, e15p, e16p, e17p, e18p, e19p, e0a, e1a, e2a, e3a, e4a, e5a, e6a, e7a, e8a, e9a, e10a, e11a, e12a, e13a, e14a, e15a, e16a, e17a, e18a, e19a, chalf, c920, c15, cone, ctwo, c200,
    cellPos_none, Bool.and_true, Bool.true_and, Bool.and_false, Bool.and_self]

theorem c9_meanPct : lmean [(1 : ℝ) / 2, 1 / 2, 9 / 20, 1 / 5] = 33 / 80 := by
  rw [lmean]
  norm_num [List.sum_cons, List.sum_nil]

theorem c9_muI : lmean [(7 : ℝ) / 80, 7 / 40, 15 / 2, -(17 / 80)] = 151 / 80 := by
  rw [lmean]
  norm_num [List.sum_cons, List.sum_nil]

theorem c9_var_pos : 0 < lvar [(7 : ℝ) / 80, 7 / 40, 15 / 2, -(17 / 80)] := by
  rw [lvar, c9_muI]
  norm_num [List.map_cons, List.map_nil, List.sum_cons, List.sum_nil, List.length_cons]

theorem c9_sigma_pos : 0 < lstd [(7 : ℝ) / 80, 7 / 40, 15 / 2, -(17 / 80)] := by
  rw [lstd]
  exact Real.sqrt_pos.mpr c9_var_pos

theorem c9_z (k : ℕ) (hk : k < 20)
    (hvk : (cellPos ((mkDataFrame c9Batch).val "field_goal_percentage" k)
      && cellPos ((mkDataFrame c9Batch).val "field_goals_attempted" k)) = true) :
    ((dictGet ((calculate_zscores (ZScoreCalculator.init cfg9) c9Batch).getD k [])
      "zscore_field_goal_percentage").getD none).getD 0
    = ((((mkDataFrame c9Batch).val "field_goal_percentage" k).getD 0 - 33 / 80)
        * ((mkDataFrame c9Batch).val "field_goals_attempted" k).getD 0 - 151 / 80)
      / lstd [(7 : ℝ) / 80, 7 / 40, 15 / 2, -(17 / 80)] := by
  have hs := c9_sane
  rw [show ("zscore_field_goal_percentage" : Field)
      = "zscore_" ++ "field_goal_percentage" from rfl,
    calculate_dictGet _ _ hs.1 hk,
    if_pos (zcat_mem_finalCols _ _ hs (by decide) (by decide)),
    finalFrame_val_zcat _ _ hs (by decide) (by decide) hk, if_neg (by decide), mul_one]
  have hz : zColumn (ZScoreCalculator.init cfg9).negative_categories (mkDataFrame c9Batch)
      "field_goal_percentage" = impactZ (mkDataFrame c9Batch) "field_goal_percentage" := by
    rw [zColumn, if_pos (Or.inl rfl)]
  rw [hz, impactZ_getD (mkDataFrame c9Batch) (Or.inl ⟨rfl, rfl⟩) (by decide)
    (show k < (mkDataFrame c9Batch).nrows from hk)]
  simp only [Option.getD_some]
  rw [show (mkDataFrame c9Batch).nrows = 20 from rfl]
  dsimp only [specImpactZ]
  rw [c9_filter]
  rw [if_neg (by decide : ¬ ([0, 1, 2, 3] : List ℕ).length = 0)]
  have hmap : List.map (fun j => ((mkDataFrame c9Batch).val "field_goal_percentage" j).getD 0)
      [0, 1, 2, 3] = [(1 : ℝ) / 2, 1 / 2, 9 / 20, 1 / 5] := rfl
  rw [hmap, c9_meanPct]
  have himp : List.map (fun j =>
      (((mkDataFrame c9Batch).val "field_goal_percentage" j).getD 0 - 33 / 80)
        * ((mkDataFrame c9Batch).val "field_goals_attempted" j).getD 0) [0, 1, 2, 3]
      = [((1 : ℝ) / 2 - 33 / 80) * 1, (1 / 2 - 33 / 80) * 2, (9 / 20 - 33 / 80) * 200,
          (1 / 5 - 33 / 80) * 1] := rfl
  have himp2 : ([((1 : ℝ) / 2 - 33 / 80) * 1, (1 / 2 - 33 / 80) * 2, (9 / 20 - 33 / 80) * 200,
      (1 / 5 - 33 / 80) * 1] : List ℝ) = [(7 : ℝ) / 80, 7 / 40, 15 / 2, -(17 / 80)] := by
    norm_num
  rw [himp, himp2, if_neg (ne_of_gt c9_sigma_pos), if_pos hvk, c9_muI]

/-- **C9, counterexample.** Records 0 and 1 of `c9Batch` are both valid
shooters with the same percentage 1/2 (different from the valid-player
mean 33/80) on 1 and 2 attempts.  Because the mean impact (dominated by
a 200-attempt shooter) is subtracted, the record with MORE attempts
receives the z-score of strictly SMALLER absolute value, refuting the
claim. -/
theorem C9_counterexample :
    ((cellPos ((mkDataFrame c9Batch).val "field_goal_percentage" 0)
      && cellPos ((mkDataFrame c9Batch).val "field_goals_attempted" 0)) = true)
    ∧ ((cellPos ((mkDataFrame c9Batch).val "field_goal_percentage" 1)
      && cellPos ((mkDataFrame c9Batch).val "field_goals_attempted" 1)) = true)
    ∧ (mkDataFrame c9Batch).val "field_goal_percentage" 0
        = (mkDataFrame c9Batch).val "field_goal_percentage" 1
    ∧ (mkDataFrame c9Batch).val "field_goals_attempted" 0 = some 1
    ∧ (mkDataFrame c9Batch).val "field_goals_attempted" 1 = some 2
    ∧ lmean (List.map (fun k => ((mkDataFrame c9Batch).val "field_goal_percentage" k).getD 0)
        (List.filter (fun k => cellPos ((mkDataFrame c9Batch).val "field_goal_percentage" k)
          && cellPos ((mkDataFrame c9Batch).val "field_goals_attempted" k)) (List.range 20)))
        ≠ ((mkDataFrame c9Batch).val "field_goal_percentage" 0).getD 0
    ∧ ¬ (|((dictGet ((calculate_zscores (ZScoreCalculator.init cfg9) c9Batch).getD 0 [])
          "zscore_field_goal_percentage").getD none).getD 0|
        < |((dictGet ((calculate_zscores (ZScoreCalculator.init cfg9) c9Batch).getD 1 [])
          "zscore_field_goal_percentage").getD none).getD 0|) := by
  have hv0 : (cellPos ((mkDataFrame c9Batch).val "field_goal_percentage" 0)
      && cellPos ((mkDataFrame c9Batch).val "field_goals_attempted" 0)) = true := by
    show (cellPos (some ((1 : ℝ) / 2)) && cellPos (some (1 : ℝ))) = true
    rw [cellPos_some_pos (by norm_num : (0 : ℝ) < 1 / 2),
      cellPos_some_pos (by norm_num : (0 : ℝ) < 1)]
    rfl
  have hv1 : (cellPos ((mkDataFrame c9Batch).val "field_goal_percentage" 1)
      && cellPos ((mkDataFrame c9Batch).val "field_goals_attempted" 1)) = true := by
    show (cellPos (some ((1 : ℝ) / 2)) && cellPos (some (2 : ℝ))) = true
    rw [cellPos_some_pos (by norm_num : (0 : ℝ) < 1 / 2),
      cellPos_some_pos (by norm_num : (0 : ℝ) < 2)]
    rfl
  refine ⟨hv0, hv1, rfl, rfl, rfl, ?_, ?_⟩
  · rw [c9_filter,
      show List.map (fun k => ((mkDataFrame c9Batch).val "field_goal_percentage" k).getD 0)
        [0, 1, 2, 3] = [(1 : ℝ) / 2, 1 / 2, 9 / 20, 1 / 5] from rfl,
      c9_meanPct,
      show (((mkDataFrame c9Batch).val "field_goal_percentage" 0).getD 0) = (1 : ℝ) / 2 from rfl]
    norm_num
  · rw [c9_z 0 (by norm_num) hv0, c9_z 1 (by norm_num) hv1,
      show (((mkDataFrame c9Batch).val "field_goal_percentage" 0).getD 0) = (1 : ℝ) / 2 from rfl,
      show (((mkDataFrame c9Batch).val "field_goals_attempted" 0).getD 0) = (1 : ℝ) from rfl,
      show (((mkDataFrame c9Batch).val "field_goal_percentage" 1).getD 0) = (1 : ℝ) / 2 from rfl,
      show (((mkDataFrame c9Batch).val "field_goals_attempted" 1).getD 0) = (2 : ℝ) from rfl,
      show ((1 : ℝ) / 2 - 33 / 80) * 1 - 151 / 80 = -(9 / 5) by norm_num,
      show ((1 : ℝ) / 2 - 33 / 80) * 2 - 151 / 80 = -(137 / 80) by norm_num]
    rw [abs_div, abs_div, abs_of_pos c9_sigma_pos, abs_neg, abs_neg,
      abs_of_pos (show (0 : ℝ) < 9 / 5 by norm_num),
      abs_of_pos (show (0 : ℝ) < 137 / 80 by norm_num)]
    apply not_lt.mpr
    apply (div_le_div_iff_of_pos_right c9_sigma_pos).mpr
    norm_num

/-- **C9, amended.** For two valid players with the same percentage and
different attempts on a sane batch, the z-scores are ordered by impact:
the player with more attempts scores strictly HIGHER when the shared
percentage is above the valid-player mean and strictly LOWER when it is
below.  (The original claim's stronger conclusions — larger absolute
value for more attempts, and sign equal to the deviation's — are false,
because the mean impact is subtracted; see the counterexample.) -/
theorem C9_impact_ordering (zc : ZScoreCalculator) (rs : List Record)
    (hs : SaneSetup zc rs)
    (hcat : "field_goal_percentage" ∈ zc.categories)
    (hmem : "field_goal_percentage" ∈ mkCols rs)
    (hamem : "field_goals_attempted" ∈ mkCols rs)
    {i j : ℕ} (hi : i < rs.length) (hj : j < rs.length)
    {p ai aj : ℝ}
    (hpi : (mkDataFrame rs).val "field_goal_percentage" i = some p)
    (hpj : (mkDataFrame rs).val "field_goal_percentage" j = some p)
    (hai : (mkDataFrame rs).val "field_goals_attempted" i = some ai)
    (haj : (mkDataFrame rs).val "field_goals_attempted" j = some aj)
    (hp : 0 < p) (hai0 : 0 < ai) (haj0 : 0 < aj) (haij : ai < aj) :
    (lmean (List.map (fun k => ((mkDataFrame rs).val "field_goal_percentage" k).getD 0)
        (List.filter (fun k => cellPos ((mkDataFrame rs).val "field_goal_percentage" k)
          && cellPos ((mkDataFrame rs).val "field_goals_attempted" k))
          (List.range rs.length))) < p
      → ((dictGet ((calculate_zscores zc rs).getD i [])
            "zscore_field_goal_percentage").getD none).getD 0
        < ((dictGet ((calculate_zscores zc rs).getD j [])
            "zscore_field_goal_percentage").getD none).getD 0)
    ∧ (p < lmean (List.map (fun k => ((mkDataFrame rs).val "field_goal_percentage" k).getD 0)
        (List.filter (fun k => cellPos ((mkDataFrame rs).val "field_goal_percentage" k)
          && cellPos ((mkDataFrame rs).val "field_goals_attempted" k))
          (List.range rs.length)))
      → ((dictGet ((calculate_zscores zc rs).getD j [])
            "zscore_field_goal_percentage").getD none).getD 0
        < ((dictGet ((calculate_zscores zc rs).getD i [])
            "zscore_field_goal_percentage").getD none).getD 0) := by
  have hdict : ∀ k : ℕ, k < rs.length →
      dictGet ((calculate_zscores zc rs).getD k []) "zscore_field_goal_percentage"
        = some (some (specImpactZ rs.length
            ((mkDataFrame rs).val "field_goal_percentage")
            ((mkDataFrame rs).val "field_goals_attempted") k)) := by
    intro k hk
    rw [show ("zscore_field_goal_percentage" : Field)
        = "zscore_" ++ "field_goal_percentage" from rfl,
      calculate_dictGet zc rs hs.1 hk,
      if_pos (zcat_mem_finalCols zc rs hs hcat hmem),
      finalFrame_val_zcat zc rs hs hcat hmem hk, if_neg (by decide), mul_one]
    have hz : zColumn zc.negative_categories (mkDataFrame rs) "field_goal_percentage"
        = impactZ (mkDataFrame rs) "field_goal_percentage" := by
      rw [zColumn, if_pos (Or.inl rfl)]
    rw [hz, impactZ_getD (mkDataFrame rs) (Or.inl ⟨rfl, rfl⟩) hamem
      (show k < (mkDataFrame rs).nrows from hk)]
    rfl
  obtain ⟨h1, h2⟩ := specImpactZ_ordering rs.length
    ((mkDataFrame rs).val "field_goal_percentage")
    ((mkDataFrame rs).val "field_goals_attempted")
    hi hj hpi hpj hai haj hp hai0 haj0 haij
  constructor
  · intro hlt
    rw [hdict i hi, hdict j hj]
    simp only [Option.getD_some]
    exact h1 hlt
  · intro hlt
    rw [hdict i hi, hdict j hj]
    simp only [Option.getD_some]
    exact h2 hlt

theorem C9_witness :
    SaneSetup (ZScoreCalculator.init cfg9) c9Batch
    ∧ "field_goal_percentage" ∈ (ZScoreCalculator.init cfg9).categories
    ∧ "field_goal_percentage" ∈ mkCols c9Batch
    ∧ "field_goals_attempted" ∈ mkCols c9Batch
    ∧ (0 : ℕ) < c9Batch.length ∧ (1 : ℕ) < c9Batch.length
    ∧ (mkDataFrame c9Batch).val "field_goal_percentage" 0 = some ((1 : ℝ) / 2)
    ∧ (mkDataFrame c9Batch).val "field_goal_percentage" 1 = some ((1 : ℝ) / 2)
    ∧ (mkDataFrame c9Batch).val "field_goals_attempted" 0 = some (1 : ℝ)
    ∧ (mkDataFrame c9Batch).val "field_goals_attempted" 1 = some (2 : ℝ)
    ∧ ((lmean (List.map (fun k => ((mkDataFrame c9Batch).val "field_goal_percentage" k).getD 0)
        (List.filter (fun k => cellPos ((mkDataFrame c9Batch).val "field_goal_percentage" k)
          && cellPos ((mkDataFrame c9Batch).val "field_goals_attempted" k))
          (List.range c9Batch.length))) < (1 : ℝ) / 2
      → ((dictGet ((calculate_zscores (ZScoreCalculator.init cfg9) c9Batch).getD 0 [])
            "zscore_field_goal_percentage").getD none).getD 0
        < ((dictGet ((calculate_zscores (ZScoreCalculator.init cfg9) c9Batch).getD 1 [])
            "zscore_field_goal_percentage").getD none).getD 0)
    ∧ ((1 : ℝ) / 2 < lmean (List.map (fun k => ((mkDataFrame c9Batch).val "field_goal_percentage" k).getD 0)
        (List.filter (fun k => cellPos ((mkDataFrame c9Batch).val "field_goal_percentage" k)
          && cellPos ((mkDataFrame c9Batch).val "field_goals_attempted" k))
          (List.range c9Batch.length)))
      → ((dictGet ((calculate_zscores (ZScoreCalculator.init cfg9) c9Batch).getD 1 [])
            "zscore_field_goal_percentage").getD none).getD 0
        < ((dictGet ((calculate_zscores (ZScoreCalculator.init cfg9) c9Batch).getD 0 [])
            "zscore_field_goal_percentage").getD none).getD 0)) := by
  refine ⟨c9_sane, by decide, by decide, by decide, by decide, by decide,
    rfl, rfl, rfl, rfl, ?_⟩
  exact C9_impact_ordering (ZScoreCalculator.init cfg9) c9Batch c9_sane
    (by decide) (by decide) (by decide) (by decide) (by decide)
    rfl rfl rfl rfl (by norm_num) (by norm_num) (by norm_num) (by norm_num)

end RosterGuru
